import Mathlib

/-!
Verification development for the pia-pia voice-recording bot.

The repository contains two generations of the same engine:
* `piapia/` — the record-only generation (`PiaPiaBot`, `DiscordSink`,
  `AudioArchiver`, `AudioSessionInfo`);
* `src/` — the record-and-transcribe generation (`DiscordSink`,
  `AudioBuffer`, `Transcriber`, `AudioArchiver`).

This file gives a shallow embedding of the data model and of the
operations of both generations and proves properties about them.

Modelling conventions
* Python `dict`s are insertion-ordered association lists
  (`List (κ × α)`); updating an existing key keeps its position,
  inserting a new key appends at the end, exactly as in CPython.
* Wall-clock instants (`time.time()` results, `datetime` values) are
  abstract: `time.time()` floats are modelled as rationals, `datetime`
  objects as an opaque integer (`PyDateTime`).  `datetime.isoformat` /
  `datetime.fromisoformat` form a codec that is the identity on the
  image of `isoformat`; it is modelled by the dedicated JSON constructor
  `JValue.time` (standing for the ISO-8601 rendering of the instant).
* `str(int)` / `int(str)` on ids is likewise a codec modelled by the
  JSON-key constructor `JKey.ofId` (standing for the decimal rendering
  of the id); `int(·)` fails on every other modelled key.
* Fallible Python code (code that may raise) returns `Option`;
  `try/except` blocks turn a `none` back into the caught behaviour.
* File contents on disk are a map from path to written JSON value; the
  per-session audio directory is a list of file names.
-/

set_option autoImplicit false

namespace PiaPia

/-! ## Python `dict` model: insertion-ordered association lists -/

section Dict

variable {κ α : Type} [DecidableEq κ]

/-- Value stored under a key (`d.get(k)` / `d[k]`). -/
def dget (d : List (κ × α)) (k : κ) : Option α :=
  match d with
  | [] => none
  | (k₀, v₀) :: rest => if k₀ = k then some v₀ else dget rest k

/-- Store a value under a key (`d[k] = v`): in-place update if the key is
present (CPython keeps the insertion position), append otherwise. -/
def dinsert (d : List (κ × α)) (k : κ) (v : α) : List (κ × α) :=
  match d with
  | [] => [(k, v)]
  | (k₀, v₀) :: rest =>
    if k₀ = k then (k₀, v) :: rest else (k₀, v₀) :: dinsert rest k v

/-- Remove a key (`d.pop(k, None)` / `del d[k]`). -/
def derase (d : List (κ × α)) (k : κ) : List (κ × α) :=
  match d with
  | [] => []
  | (k₀, v₀) :: rest =>
    if k₀ = k then rest else (k₀, v₀) :: derase rest k

/-- Update the value stored under a present key, leaving absent keys
alone (used for `d[k].field = v` patterns). -/
def dmodify (d : List (κ × α)) (k : κ) (f : α → α) : List (κ × α) :=
  match d with
  | [] => []
  | (k₀, v₀) :: rest =>
    if k₀ = k then (k₀, f v₀) :: rest else (k₀, v₀) :: dmodify rest k f

@[simp] theorem dget_nil (k : κ) : dget ([] : List (κ × α)) k = none := rfl

theorem dget_dinsert_self (d : List (κ × α)) (k : κ) (v : α) :
    dget (dinsert d k v) k = some v := by
  induction d with
  | nil => simp [dget, dinsert]
  | cons hd tl ih =>
    obtain ⟨k₀, v₀⟩ := hd
    by_cases h : k₀ = k <;> simp [dget, dinsert, h, ih]

theorem dget_dinsert_ne (d : List (κ × α)) (k k' : κ) (v : α) (h : k ≠ k') :
    dget (dinsert d k v) k' = dget d k' := by
  induction d with
  | nil => simp [dget, dinsert, h]
  | cons hd tl ih =>
    obtain ⟨k₀, v₀⟩ := hd
    by_cases h₀ : k₀ = k
    · subst h₀
      simp [dget, dinsert, h]
    · simp [dget, dinsert, h₀, ih]

theorem dget_derase_self (d : List (κ × α)) (k : κ)
    (hnd : (d.map Prod.fst).Nodup) : dget (derase d k) k = none := by
  induction d with
  | nil => simp [derase]
  | cons hd tl ih =>
    obtain ⟨k₀, v₀⟩ := hd
    simp only [List.map_cons, List.nodup_cons] at hnd
    by_cases h : k₀ = k
    · subst h
      cases htl : dget tl k₀ with
      | none => simp [derase, htl]
      | some v =>
        exfalso
        apply hnd.1
        clear ih hnd
        induction tl with
        | nil => simp [dget] at htl
        | cons hd₂ tl₂ ih₂ =>
          obtain ⟨k₂, v₂⟩ := hd₂
          by_cases h₂ : k₂ = k₀
          · subst h₂; simp
          · simp only [dget, if_neg h₂] at htl
            simpa using Or.inr (ih₂ htl)
    · simp [derase, h, dget, ih hnd.2]

theorem dget_derase_ne (d : List (κ × α)) (k k' : κ) (h : k ≠ k') :
    dget (derase d k) k' = dget d k' := by
  induction d with
  | nil => simp [derase]
  | cons hd tl ih =>
    obtain ⟨k₀, v₀⟩ := hd
    by_cases h₀ : k₀ = k
    · subst h₀
      simp [derase, dget, h]
    · simp [derase, h₀, dget, ih]

theorem derase_derase (d : List (κ × α)) (k : κ)
    (hnd : (d.map Prod.fst).Nodup) :
    derase (derase d k) k = derase d k := by
  induction d with
  | nil => simp [derase]
  | cons hd tl ih =>
    obtain ⟨k₀, v₀⟩ := hd
    simp only [List.map_cons, List.nodup_cons] at hnd
    by_cases h : k₀ = k
    · subst h
      have : ∀ l : List (κ × α), k₀ ∉ l.map Prod.fst → derase l k₀ = l := by
        intro l
        induction l with
        | nil => intro _; rfl
        | cons hd₂ tl₂ ih₂ =>
          obtain ⟨k₂, v₂⟩ := hd₂
          intro hmem
          simp only [List.map_cons, List.mem_cons] at hmem
          push_neg at hmem
          simp [derase, Ne.symm hmem.1, ih₂ hmem.2]
      simpa [derase] using this tl hnd.1
    · simp [derase, h, ih hnd.2]

theorem dinsert_dinsert_same (d : List (κ × α)) (k : κ) (v : α) :
    dinsert (dinsert d k v) k v = dinsert d k v := by
  induction d with
  | nil => simp [dinsert]
  | cons hd tl ih =>
    obtain ⟨k₀, v₀⟩ := hd
    by_cases h : k₀ = k <;> simp [dinsert, h, ih]

theorem dinsert_of_not_mem (d : List (κ × α)) (k : κ) (v : α)
    (h : k ∉ d.map Prod.fst) : dinsert d k v = d ++ [(k, v)] := by
  induction d with
  | nil => rfl
  | cons hd tl ih =>
    obtain ⟨k₀, v₀⟩ := hd
    simp only [List.map_cons, List.mem_cons] at h
    push_neg at h
    simp [dinsert, h.1, Ne.symm h.1, ih h.2]

end Dict

/-! ## Python string helpers

`str.replace` replaces every non-overlapping occurrence left to right;
`str.endswith` is a suffix test.  Both are implemented over `List Char`
(with an explicit fuel argument so that they reduce inside the kernel;
the fuel `s.length` is always sufficient because each step consumes at
least one character of `s`). -/

/-- Does `pat` occur at the head of `s`? -/
def charsStartWith : List Char → List Char → Bool
  | [], _ => true
  | _ :: _, [] => false
  | a :: pat, b :: s => a = b && charsStartWith pat s

/-- One fuelled pass of Python `str.replace` over the character list. -/
def pyReplaceChars (old new : List Char) : Nat → List Char → List Char
  | 0, s => s
  | _, [] => []
  | fuel + 1, c :: rest =>
    if charsStartWith old (c :: rest) && !old.isEmpty then
      new ++ pyReplaceChars old new fuel ((c :: rest).drop old.length)
    else
      c :: pyReplaceChars old new fuel rest

/-- Python `s.replace(old, new)` (for non-empty `old`, the only use in the
source). -/
def pyReplace (s old new : String) : String :=
  ⟨pyReplaceChars old.data new.data s.data.length s.data⟩

/-- Python `s.endswith(suffix)`. -/
def pyEndsWith (s suffix : String) : Bool :=
  suffix.data.isSuffixOf s.data

/-! ## JSON document model

`JValue` models the JSON documents produced by `json.dump` and read by
`json.load`.  Two library codecs are modelled by dedicated
constructors:

* `JValue.time t` stands for the JSON string holding the ISO-8601
  rendering `t.isoformat()` of the instant `t`; `datetime.fromisoformat`
  recovers `t` from it (this round trip is a documented guarantee of the
  `datetime` library).
* `JKey.ofId n` stands for the JSON object key holding the decimal
  rendering `str(n)` of the integer `n`; `int(·)` recovers `n` from it
  and raises (`none`) on every other modelled key. -/

/-- Model of a `datetime.datetime` instant. -/
abbrev PyDateTime := Int

/-- Model of a `time.time()` wall-clock value (a float, modelled exactly). -/
abbrev PyTime := ℚ

/-- Key of a JSON object. -/
inductive JKey where
  | str (s : String)
  | ofId (n : Int)
deriving DecidableEq, Repr

/-- JSON value. -/
inductive JValue where
  | null
  | bool (b : Bool)
  | int (n : Int)
  | float (q : ℚ)
  | str (s : String)
  | time (t : PyDateTime)
  | arr (items : List JValue)
  | obj (fields : List (JKey × JValue))

/-- Python `int(k)` on a JSON object key: succeeds exactly on decimal id
keys. -/
def JKey.toInt : JKey → Option Int
  | .str _ => none
  | .ofId n => some n

/-- Lookup in a JSON object (`data.get(k)`); `none` when the key is
absent or the value is not an object. -/
def jGet (v : JValue) (k : JKey) : Option JValue :=
  match v with
  | .obj fields => dget fields k
  | _ => none

/-- Keys of a JSON object, in serialization order. -/
def jKeys : JValue → List JKey
  | .obj fields => fields.map Prod.fst
  | _ => []

/-- Python truthiness of a JSON value (`or {}` patterns). -/
def jTruthy : JValue → Bool
  | .null => false
  | .bool b => b
  | .int n => decide (n ≠ 0)
  | .float q => decide (q ≠ 0)
  | .str s => !s.isEmpty
  | .time _ => true
  | .arr items => !items.isEmpty
  | .obj fields => !fields.isEmpty

/-! ## `piapia/domain/sessions.py` -/

/-- Conversion `Optional[str] -> JSON` used by the serializers. -/
def optStrJ : Option String → JValue
  | none => .null
  | some s => .str s

/-- Conversion `Optional[float] -> JSON` used by the serializers. -/
def optFloatJ : Option ℚ → JValue
  | none => .null
  | some q => .float q

/-- Helper `_dt_to_iso`: `dt.isoformat() if dt else None`. -/
def dtToIso : Option PyDateTime → JValue
  | none => .null
  | some t => .time t

/-- Helper `_dt_from_iso`: `None` on a falsy value, otherwise
`datetime.fromisoformat(value)`.  The outer `Option` is the raise (a
modelled value that is not an ISO timestamp makes `fromisoformat`
fail). -/
def dtFromIso (v : JValue) : Option (Option PyDateTime) :=
  if !jTruthy v then some none
  else
    match v with
    | .time t => some (some t)
    | _ => none

/-- Python `int(x)` truncation of a float toward zero. -/
def pyTrunc (q : ℚ) : Int :=
  if 0 ≤ q then q.floor else q.ceil

/-- Python `int(x)` on a JSON value; `none` is the raise.  Modelled
strings are treated as non-numeric (decimal id strings are represented
by `JKey.ofId`, never by `JValue.str`). -/
def pyIntJ : JValue → Option Int
  | .int n => some n
  | .bool b => some (if b then 1 else 0)
  | .float q => some (pyTrunc q)
  | _ => none

/-- Python `str(x)` on a JSON value, for the shapes whose rendering the
model represents exactly; other shapes are left unmodelled (`none`). -/
def pyStrJ : JValue → Option String
  | .str s => some s
  | .int n => some (toString n)
  | _ => none

/-- Reading of a field declared `Optional[str]`; `none` is an
unmodelled (non-string, non-null) value. -/
def jOptStr : JValue → Option (Option String)
  | .null => some none
  | .str s => some (some s)
  | _ => none

/-- Reading of a field declared `Optional[float]`. -/
def jOptFloat : JValue → Option (Option ℚ)
  | .null => some none
  | .float q => some (some q)
  | .int n => some (some (n : ℚ))
  | _ => none

/-- Reading of a field declared `str`. -/
def jStrJ : JValue → Option String
  | .str s => some s
  | _ => none

/-- Python `dict(mapping)`: copies the pairs, deduplicating keys (first
position, last value). -/
def pyDictOf (kvs : List (JKey × JValue)) : List (JKey × JValue) :=
  kvs.foldl (fun acc kv => dinsert acc kv.1 kv.2) []

/-- Modelled rendering of `now.strftime('%Y-%m-%d_%H-%M-%S')` (an
injective textual stamp of the instant). -/
def pyStrftimeStamp (t : PyDateTime) : String :=
  toString t

/-- Helper `make_session_id`: `f"{now.strftime(...)}_g{guild_id}"`. -/
def make_session_id (guild_id : Int) (now : PyDateTime) : String :=
  pyStrftimeStamp now ++ "_g" ++ toString guild_id

/-- Dataclass `PlayerSessionInfo`. -/
structure PlayerSessionInfo where
  user_id : Int
  player : Option String := none
  character : Option String := none
  first_offset_seconds : Option ℚ := none
  first_spoke_at : Option PyDateTime := none
deriving DecidableEq, Repr

/-- Method `PlayerSessionInfo.to_dict`. -/
def PlayerSessionInfo.to_dict (p : PlayerSessionInfo) : JValue :=
  .obj [ (.str "user_id", .int p.user_id),
         (.str "player", optStrJ p.player),
         (.str "character", optStrJ p.character),
         (.str "first_offset_seconds", optFloatJ p.first_offset_seconds),
         (.str "first_spoke_at", dtToIso p.first_spoke_at) ]

/-- Classmethod `PlayerSessionInfo.from_dict`; `none` is the raise. -/
def PlayerSessionInfo.from_dict (data : JValue) : Option PlayerSessionInfo := do
  let uidv ← jGet data (.str "user_id")
  let uid ← pyIntJ uidv
  let player ← jOptStr ((jGet data (.str "player")).getD .null)
  let character ← jOptStr ((jGet data (.str "character")).getD .null)
  let fos ← jOptFloat ((jGet data (.str "first_offset_seconds")).getD .null)
  let fsa ← dtFromIso ((jGet data (.str "first_spoke_at")).getD .null)
  pure { user_id := uid, player := player, character := character,
         first_offset_seconds := fos, first_spoke_at := fsa }

/-- Dataclass `AudioSessionInfo`.  `players` is the Python dict
`user_id -> PlayerSessionInfo`, `extra` the free-form dict merged by the
sink. -/
structure AudioSessionInfo where
  session_id : String
  guild_id : Int
  mode : String
  started_at : PyDateTime
  ended_at : Option PyDateTime := none
  label : Option String := none
  base_dir : String := ""
  audio_dir : String := ""
  meta_path : String := ""
  players : List (Int × PlayerSessionInfo) := []
  extra : List (JKey × JValue) := []

/-- Method `AudioSessionInfo.add_or_update_player`. -/
def AudioSessionInfo.add_or_update_player (s : AudioSessionInfo)
    (user_id : Int) (player character : Option String) : AudioSessionInfo :=
  let s :=
    if (dget s.players user_id).isNone then
      { s with players := dinsert s.players user_id { user_id := user_id } }
    else s
  let s :=
    match player with
    | none => s
    | some p =>
      { s with players :=
          dmodify s.players user_id (fun i => { i with player := some p }) }
  match character with
  | none => s
  | some c =>
    { s with players :=
        dmodify s.players user_id (fun i => { i with character := some c }) }

/-- Method `AudioSessionInfo.to_dict`: players keyed by `str(uid)`,
`extra` added only when the dict is truthy (non-empty). -/
def AudioSessionInfo.to_dict (s : AudioSessionInfo) : JValue :=
  let players_dict : List (JKey × JValue) :=
    s.players.map (fun kv => (JKey.ofId kv.1, kv.2.to_dict))
  let base : List (JKey × JValue) :=
    [ (.str "session_id", .str s.session_id),
      (.str "guild_id", .int s.guild_id),
      (.str "mode", .str s.mode),
      (.str "started_at", dtToIso (some s.started_at)),
      (.str "ended_at", dtToIso s.ended_at),
      (.str "label", optStrJ s.label),
      (.str "base_dir", .str s.base_dir),
      (.str "audio_dir", .str s.audio_dir),
      (.str "meta_path", .str s.meta_path),
      (.str "players", .obj players_dict) ]
  .obj (if s.extra.isEmpty then base else base ++ [(.str "extra", .obj s.extra)])

/-- Loop body of `AudioSessionInfo.from_dict` over a dict-shaped
`players` value: `int(k)`, falling back to `int(v.get("user_id"))` when
the key does not parse. -/
def parsePlayersObj :
    List (JKey × JValue) → List (Int × PlayerSessionInfo) →
    Option (List (Int × PlayerSessionInfo))
  | [], acc => some acc
  | (k, v) :: rest, acc => do
    let uid ←
      match k.toInt with
      | some n => some n
      | none => pyIntJ ((jGet v (.str "user_id")).getD .null)
    let p ← PlayerSessionInfo.from_dict v
    parsePlayersObj rest (dinsert acc uid p)

/-- Loop body of `AudioSessionInfo.from_dict` over a list-shaped
`players` value. -/
def parsePlayersList :
    List JValue → List (Int × PlayerSessionInfo) →
    Option (List (Int × PlayerSessionInfo))
  | [], acc => some acc
  | item :: rest, acc => do
    let p ← PlayerSessionInfo.from_dict item
    parsePlayersList rest (dinsert acc p.user_id p)

/-- Classmethod `AudioSessionInfo.from_dict`; `none` is the raise.
`now` is the `datetime.now(timezone.utc)` fallback used when
`started_at` is absent. -/
def AudioSessionInfo.from_dict (now : PyDateTime) (data : JValue) :
    Option AudioSessionInfo := do
  let raw_players := (jGet data (.str "players")).getD .null
  let raw_players := if jTruthy raw_players then raw_players else .obj []
  let players ←
    match raw_players with
    | .obj kvs => parsePlayersObj kvs []
    | .arr items => parsePlayersList items []
    | _ => some []
  let sidv ← jGet data (.str "session_id")
  let session_id ← pyStrJ sidv
  let gidv ← jGet data (.str "guild_id")
  let guild_id ← pyIntJ gidv
  let modev ← jGet data (.str "mode")
  let mode ← jStrJ modev
  let sa ← dtFromIso ((jGet data (.str "started_at")).getD .null)
  let started_at := sa.getD now
  let ended_at ← dtFromIso ((jGet data (.str "ended_at")).getD .null)
  let label ← jOptStr ((jGet data (.str "label")).getD .null)
  let base_dir ← jStrJ ((jGet data (.str "base_dir")).getD (.str ""))
  let audio_dir ← jStrJ ((jGet data (.str "audio_dir")).getD (.str ""))
  let meta_path ← jStrJ ((jGet data (.str "meta_path")).getD (.str ""))
  let rawExtra := (jGet data (.str "extra")).getD .null
  let rawExtra := if jTruthy rawExtra then rawExtra else .obj []
  let extra ←
    match rawExtra with
    | .obj kvs => some (pyDictOf kvs)
    | _ => none
  pure { session_id := session_id, guild_id := guild_id, mode := mode,
         started_at := started_at, ended_at := ended_at, label := label,
         base_dir := base_dir, audio_dir := audio_dir, meta_path := meta_path,
         players := players, extra := extra }

/-- Method `AudioSessionInfo.save_json` (called with `path=None`):
raises (`none`) when `meta_path` is empty, otherwise writes
`json.dump(self.to_dict())` to `meta_path`. -/
def AudioSessionInfo.save_json (s : AudioSessionInfo)
    (disk : List (String × JValue)) : Option (List (String × JValue)) :=
  if s.meta_path.isEmpty then none
  else some (dinsert disk s.meta_path s.to_dict)

/-! ## `piapia/sinks/audio_archiver.py`

The archiver state also carries the listing of its session directory
(`dir`), because `close()` converts files by listing that directory. -/

/-- PCM frame (`bytes`). -/
abbrev Bytes := List Nat

/-- File name `f"user_{user_id}.wav"` written by the archiver. -/
def userWavName (user_id : Int) : String :=
  "user_" ++ toString user_id ++ ".wav"

/-- State of an `AudioArchiver`: `files` is the `_files` dict of open
`Wave_write` handles (a handle carries no further modelled state),
`dir` the names currently present in `session_path`. -/
structure AudioArchiver where
  base_dir : String
  session_id : String
  channels : Nat
  sample_width : Nat
  sample_rate : Nat
  audio_format : String
  session_path : String
  files : List (Int × Unit)
  bytes_written : Nat
  dir : List String

/-- Method `_get_or_open_file`: lazily opens (creates or truncates) the
per-user WAV file on first use. -/
def AudioArchiver.getOrOpenFile (a : AudioArchiver) (user_id : Int) :
    AudioArchiver :=
  if (dget a.files user_id).isSome then a
  else
    { a with
      files := dinsert a.files user_id (),
      dir := if userWavName user_id ∈ a.dir then a.dir
             else a.dir ++ [userWavName user_id] }

/-- Method `append`: open lazily, write the PCM frames, count the
bytes. -/
def AudioArchiver.append (a : AudioArchiver) (user_id : Int) (data : Bytes) :
    AudioArchiver :=
  let a := a.getOrOpenFile user_id
  { a with bytes_written := a.bytes_written + data.length }

/-- Body of the conversion loop of `_convert_to_target_format` for one
`filename` of the directory snapshot, acting on the current listing.
`ok filename` says whether `pydub`/FFmpeg convert that file
successfully.  On success `export` writes the target and `os.remove`
deletes the source WAV; on failure the error is logged and the listing
is untouched. -/
def convertStep (fmt : String) (ok : String → Bool)
    (dir : List String) (filename : String) : List String :=
  if !pyEndsWith filename ".wav" then dir
  else
    let target := pyReplace filename ".wav" ("." ++ fmt)
    if ok filename then
      (if target ∈ dir then dir else dir ++ [target]).erase filename
    else dir

/-- Method `_convert_to_target_format`: nothing to do for a `wav`
target; if `pydub` is missing the error is logged and the WAV files
kept; otherwise every `.wav` file of the `os.listdir` snapshot is
converted. -/
def AudioArchiver.convertToTargetFormat (a : AudioArchiver)
    (pydubAvailable : Bool) (ok : String → Bool) : AudioArchiver :=
  if a.audio_format = "wav" then a
  else if !pydubAvailable then a
  else { a with dir := a.dir.foldl (convertStep a.audio_format ok) a.dir }

/-- Method `close`: returns at once if no file was ever opened;
otherwise closes every handle (best effort), clears `_files`, then
converts (best effort, exceptions caught). -/
def AudioArchiver.close (a : AudioArchiver) (pydubAvailable : Bool)
    (ok : String → Bool) : AudioArchiver :=
  if a.files.isEmpty then a
  else
    let a := { a with files := ([] : List (Int × Unit)) }
    a.convertToTargetFormat pydubAvailable ok

/-! ## `src/sinks/audio_buffer.py` -/

/-- Dataclass `SpeakerInfo`. -/
structure SpeakerInfo where
  user_id : Int
  player : Option String
  character : Option String
  start_time : PyTime
  last_audio_time : PyTime
deriving DecidableEq, Repr

/-- In-memory WAV blob built by `flush_speaker` (header parameters and
the PCM chunks written through `writeframes`). -/
structure WavBlob where
  channels : Nat
  sample_width : Nat
  sample_rate : Nat
  pcm : List Bytes
deriving DecidableEq, Repr

/-- Frame count of the blob as `wave` reports it on reading: total data
bytes divided by the frame size. -/
def WavBlob.nframes (b : WavBlob) : Nat :=
  (b.pcm.map List.length).sum / (b.channels * b.sample_width)

/-- State of an `AudioBuffer`. -/
structure AudioBuffer where
  max_speakers : Int
  data_limit : Nat
  channels : Nat
  sample_width : Nat
  sample_rate : Nat
  speakers : List (Int × SpeakerInfo)
  buffers : List (Int × List Bytes)
deriving DecidableEq, Repr

/-- Bounded append of `deque(maxlen=limit)`: the oldest entries beyond
the capacity are dropped. -/
def dequePush (q : List Bytes) (d : Bytes) (limit : Nat) : List Bytes :=
  let q := q ++ [d]
  q.drop (q.length - limit)

/-- Method `add_audio`: register an unseen speaker (unless the
`max_speakers` cap is reached, in which case the packet is ignored),
append the chunk to the bounded queue and refresh `last_audio_time`. -/
def AudioBuffer.add_audio (buf : AudioBuffer) (user_id : Int) (data : Bytes)
    (timestamp : PyTime) (player character : Option String) : AudioBuffer :=
  let registered :=
    if (dget buf.speakers user_id).isNone then
      if buf.max_speakers > 0 ∧ (buf.speakers.length : Int) ≥ buf.max_speakers
      then none
      else
        some { buf with
          speakers := dinsert buf.speakers user_id
            { user_id := user_id, player := player, character := character,
              start_time := timestamp, last_audio_time := timestamp },
          buffers := dinsert buf.buffers user_id [] }
    else some buf
  match registered with
  | none => buf
  | some b =>
    { b with
      buffers := dmodify b.buffers user_id
        (fun q => dequePush q data b.data_limit),
      speakers := dmodify b.speakers user_id
        (fun i => { i with last_audio_time := timestamp }) }

/-- Method `is_speaker_done`: the speaker has been silent for at least
`silence_threshold` seconds (`now` is the `time.time()` reading). -/
def AudioBuffer.is_speaker_done (buf : AudioBuffer) (now : PyTime)
    (user_id : Int) (silence_threshold : PyTime) : Bool :=
  match dget buf.speakers user_id with
  | none => false
  | some info => decide (now - info.last_audio_time ≥ silence_threshold)

/-- Method `flush_speaker`: materialize the queued chunks into a WAV
blob (or `none` when nothing was queued) and remove the speaker from
both internal structures. -/
def AudioBuffer.flush_speaker (buf : AudioBuffer) (user_id : Int) :
    (Option WavBlob × Option SpeakerInfo) × AudioBuffer :=
  match dget buf.speakers user_id with
  | none => ((none, none), buf)
  | some info =>
    let pcm_chunks := (dget buf.buffers user_id).getD []
    let cleaned := { buf with
      speakers := derase buf.speakers user_id,
      buffers := derase buf.buffers user_id }
    if pcm_chunks.isEmpty then ((none, some info), cleaned)
    else
      ((some { channels := buf.channels, sample_width := buf.sample_width,
               sample_rate := buf.sample_rate, pcm := pcm_chunks },
        some info), cleaned)

/-! ## `src/sinks/transcriber.py`

The two backends are modelled as the functions the constructor would
have installed: `client` (OpenAI, returning `res.text`, possibly
`None`) and `model` (Faster-Whisper, returning the segment texts); an
`Except.error` result is a raised backend exception.  `transcribe_wav`
additionally reports how many backend invocations it performed. -/

/-- State of a `Transcriber`. -/
structure Transcriber where
  mode : String
  language : String
  min_duration : ℚ
  client : Option (WavBlob → Except Unit (Option String))
  model : Option (WavBlob → Except Unit (List String))

/-- Method `_get_wav_duration`: duration in seconds of an in-memory
WAV (`0.0` for a zero sample rate). -/
def Transcriber.getWavDuration (b : WavBlob) : ℚ :=
  if b.sample_rate = 0 then 0
  else (b.nframes : ℚ) / (b.sample_rate : ℚ)

/-- Method `transcribe_wav`: returns the transcription together with
the number of backend invocations performed.  The whole body runs
inside `try/except`, so a backend error (or a missing backend object)
degrades to the empty string instead of raising. -/
def Transcriber.transcribe_wav (t : Transcriber) (wav_io : WavBlob) :
    String × Nat :=
  let duration := Transcriber.getWavDuration wav_io
  if duration < t.min_duration then ("", 0)
  else if t.mode = "openai" then
    match t.client with
    | none => ("", 0)
    | some call =>
      match call wav_io with
      | .ok text => (text.getD "", 1)
      | .error _ => ("", 1)
  else
    match t.model with
    | none => ("", 0)
    | some call =>
      match call wav_io with
      | .ok segments => (String.join segments, 1)
      | .error _ => ("", 1)

/-! ## `src/sinks/discord_sink.py`

Only the state touched by `write` is modelled in detail; the monitor
loop runs on its own thread and is not needed by the properties below.
The `@Filters.container` wrapper applies the default (empty) filter
configuration, which drops nothing. -/

/-- State of the transcribing-generation `DiscordSink`. -/
structure SrcDiscordSink where
  guild_id : Int
  log_path : String
  silence_threshold : ℚ
  enable_subtitle_noise_filter : Bool
  player_map : List (Int × (String × String))
  audio_archiver : Option AudioArchiver
  audio_buffer : AudioBuffer
  voice_queue : List (Int × Bytes × PyTime)
  running : Bool

/-- Method `write` of the transcribing generation: timestamp the frame
(`now` is the `time.time()` reading) and push it onto `voice_queue`;
nothing else happens on the audio thread. -/
def SrcDiscordSink.write (s : SrcDiscordSink) (data : Bytes) (user_id : Int)
    (now : PyTime) : SrcDiscordSink :=
  { s with voice_queue := s.voice_queue ++ [(user_id, data, now)] }

/-! ## `piapia/sinks/discord_sink.py` -/

/-- State of the record-only-generation `DiscordSink`. -/
structure PiaDiscordSink where
  guild_id : Int
  mode : String
  player_map : List (Int × (String × String))
  audio_archiver : Option AudioArchiver
  session_meta_path : Option String
  start_ts : Option PyTime
  user_first_offset_seconds : List (Int × ℚ)

/-- Constructor of the record-only `DiscordSink`: a mode other than
`record_only` is coerced to `record_only` with a logged warning. -/
def PiaDiscordSink.create (guild_id : Int) (mode : String)
    (player_map : List (Int × (String × String)))
    (audio_archiver : Option AudioArchiver)
    (session_meta_path : Option String) : PiaDiscordSink :=
  let coerced := if mode = "record_only" then mode else "record_only"
  { guild_id := guild_id, mode := coerced, player_map := player_map,
    audio_archiver := audio_archiver, session_meta_path := session_meta_path,
    start_ts := none, user_first_offset_seconds := [] }

/-- Method `write` of the record-only generation: drop empty frames,
record the global and per-user first-packet timestamps, then append the
frame to the archiver under the archiver lock (direct file writing, no
queue in this generation). -/
def PiaDiscordSink.write (s : PiaDiscordSink) (data : Bytes) (user_id : Int)
    (now : PyTime) : PiaDiscordSink :=
  if data.isEmpty then s
  else
    let s := if s.start_ts.isNone then { s with start_ts := some now } else s
    let s :=
      if (dget s.user_first_offset_seconds user_id).isNone ∧ s.start_ts.isSome
      then
        let offsets :=
          dinsert s.user_first_offset_seconds user_id
            (max 0 (now - s.start_ts.getD now))
        { s with user_first_offset_seconds := offsets }
      else s
    match s.audio_archiver with
    | none => s
    | some a => { s with audio_archiver := some (a.append user_id data) }

/-- Method `_write_session_meta_extras`: best-effort merge of the
sink's extra fields into `session_meta.json` on disk. -/
def PiaDiscordSink.writeSessionMetaExtras (s : PiaDiscordSink)
    (disk : List (String × JValue)) : List (String × JValue) :=
  match s.session_meta_path with
  | none => disk
  | some path =>
    if path.isEmpty then disk
    else
      let extras : List (JKey × JValue) :=
        [ (.str "audio_start_ts",
            match s.start_ts with | none => .null | some t => .float t),
          (.str "user_first_offset_seconds",
            .obj (s.user_first_offset_seconds.map
              (fun kv => (JKey.ofId kv.1, JValue.float kv.2)))) ]
      let extras :=
        if s.player_map.isEmpty then extras
        else extras ++
          [ (.str "player_map",
              .obj (s.player_map.map (fun kv =>
                (JKey.ofId kv.1,
                 JValue.obj [ (.str "player", .str kv.2.1),
                              (.str "character", .str kv.2.2) ])))) ]
      let data : List (JKey × JValue) :=
        match dget disk path with
        | some (JValue.obj fields) => fields
        | some _ => []
        | none => []
      let cur_extra : List (JKey × JValue) :=
        match dget data (.str "extra") with
        | some (.obj kvs) => kvs
        | _ => []
      let upd := extras.filter
        (fun kv => match kv.2 with | .null => false | _ => true)
      let cur_extra := upd.foldl (fun acc kv => dinsert acc kv.1 kv.2) cur_extra
      dinsert disk path (.obj (dinsert data (.str "extra") (.obj cur_extra)))

/-- Method `cleanup` of the record-only sink: write the meta extras
(best effort), then close the archiver under the lock (best effort). -/
def PiaDiscordSink.cleanup (s : PiaDiscordSink) (pydubAvailable : Bool)
    (ok : String → Bool) (disk : List (String × JValue)) :
    PiaDiscordSink × List (String × JValue) :=
  let disk := s.writeSessionMetaExtras disk
  match s.audio_archiver with
  | none => (s, disk)
  | some a =>
    ({ s with audio_archiver := some (a.close pydubAvailable ok) }, disk)

/-! ## `piapia/bot/piapia_bot.py`

The orchestrator state gathers the per-guild maps, the timer tasks and
the JSON files on disk.  Calls that can raise are driven by a
`FailOracle`; a raised step leaves the state as it was when the raise
happened (the caller's `try/except`, where present, decides whether the
following steps still run).  Cleanup functions additionally report the
ordered trace of the cleanup steps they completed. -/

/-- Subset of `Settings` consumed by the orchestrator. -/
structure Settings where
  audio_format : String
  logs_dir : String
  audio_sessions_subdir : String
  max_session_duration_minutes : Int

/-- Status of an `asyncio.Task` used as a max-duration timer. -/
inductive TimerStatus where
  | running
  | done
  | cancelled
deriving DecidableEq, Repr

/-- Per-guild state of `PiaPiaBot`. -/
structure BotState where
  settings : Settings
  player_map : List (Int × List (Int × (String × String)))
  current_session_by_guild : List (Int × AudioSessionInfo)
  current_sink_by_guild : List (Int × PiaDiscordSink)
  session_timers : List (Int × TimerStatus)
  disk : List (String × JValue)

/-- Failure script for one cleanup run: which wrapped external calls
raise, and how the conversion tooling behaves. -/
structure FailOracle where
  finalize_raises : Bool
  cleanup_raises : Bool
  pydubAvailable : Bool
  convOk : String → Bool

/-- Steps of a cleanup path, in execution order. -/
inductive CleanStep where
  | cancelTimer
  | detachSink
  | finalizeMeta
  | closeSink
  | dropState
deriving DecidableEq, Repr

namespace PiaPiaBot

/-- Method `_cancel_session_timer`: pop the task and cancel it unless it
already completed.  The boolean reports whether `task.cancel()` was
actually invoked. -/
def cancelSessionTimer (st : BotState) (guild_id : Int) : BotState × Bool :=
  match dget st.session_timers guild_id with
  | none => (st, false)
  | some task =>
    ({ st with session_timers := derase st.session_timers guild_id },
     task = TimerStatus.running)

/-- Method `_start_session_timer`: no timer for a non-positive maximum
duration; otherwise cancel any previous timer and register a fresh
task. -/
def startSessionTimer (st : BotState) (guild_id : Int) : BotState :=
  if st.settings.max_session_duration_minutes ≤ 0 then st
  else
    let st := (cancelSessionTimer st guild_id).1
    { st with session_timers :=
        dinsert st.session_timers guild_id TimerStatus.running }

/-- Method `_finalize_session_meta_for_guild`: nothing without a
session; otherwise set `ended_at` if still unset and save the session
JSON (save errors are caught and logged). -/
def finalizeSessionMetaForGuild (st : BotState) (guild_id : Int)
    (now : PyDateTime) : BotState :=
  match dget st.current_session_by_guild guild_id with
  | none => st
  | some session =>
    let session :=
      if session.ended_at.isNone then { session with ended_at := some now }
      else session
    let disk :=
      match session.save_json st.disk with
      | some d => d
      | none => st.disk
    { st with
      current_session_by_guild :=
        dinsert st.current_session_by_guild guild_id session,
      disk := disk }

/-- Step 2 of `_close_and_clean_sink_for_guild`: the `try/except`
around `sink.cleanup()` for the guild's sink, if any. -/
def cleanupSinkStep (st : BotState) (guild_id : Int) (o : FailOracle) :
    BotState :=
  match dget st.current_sink_by_guild guild_id with
  | none => st
  | some sink =>
    if o.cleanup_raises then st
    else
      let (sink, disk) := sink.cleanup o.pydubAvailable o.convOk st.disk
      { st with
        current_sink_by_guild :=
          dinsert st.current_sink_by_guild guild_id sink,
        disk := disk }

/-- Method `_close_and_clean_sink_for_guild`: cancel the timer, then
finalize the metadata (wrapped), then clean the sink up (wrapped), then
drop the per-guild state.  Both wrapped steps log-and-continue on a
raise. -/
def closeAndCleanSinkForGuild (st : BotState) (guild_id : Int)
    (now : PyDateTime) (o : FailOracle) : BotState × List CleanStep :=
  let st := (cancelSessionTimer st guild_id).1
  let st :=
    if o.finalize_raises then st
    else finalizeSessionMetaForGuild st guild_id now
  let st := cleanupSinkStep st guild_id o
  let st := { st with
    current_sink_by_guild := derase st.current_sink_by_guild guild_id,
    current_session_by_guild := derase st.current_session_by_guild guild_id }
  (st, [.cancelTimer, .finalizeMeta, .closeSink, .dropState])

/-- Callback `on_stop_record_callback` installed by
`_start_sink_for_session`: cancel the timer, detach the sink from the
map, then finalize, clean the sink up and drop the session — with no
`try/except` around the last three steps, so a raise aborts the rest of
the callback.  Returns the completed steps and whether the callback ran
to completion. -/
def onStopRecordCallback (st : BotState) (guild_id : Int)
    (now : PyDateTime) (o : FailOracle) :
    BotState × List CleanStep × Bool :=
  let st := (cancelSessionTimer st guild_id).1
  let sink_obj := dget st.current_sink_by_guild guild_id
  let st := { st with
    current_sink_by_guild := derase st.current_sink_by_guild guild_id }
  let trace := [CleanStep.cancelTimer, CleanStep.detachSink]
  if o.finalize_raises then (st, trace, false)
  else
    let st := finalizeSessionMetaForGuild st guild_id now
    let trace := trace ++ [CleanStep.finalizeMeta]
    match sink_obj with
    | none =>
      ({ st with current_session_by_guild :=
           derase st.current_session_by_guild guild_id },
       trace ++ [CleanStep.dropState], true)
    | some sink =>
      if o.cleanup_raises then (st, trace, false)
      else
        let (_, disk) := sink.cleanup o.pydubAvailable o.convOk st.disk
        let st := { st with disk := disk }
        ({ st with current_session_by_guild :=
             derase st.current_session_by_guild guild_id },
         trace ++ [CleanStep.closeSink, CleanStep.dropState], true)

/-- Per-guild body of the shutdown loop of method `close`: finalize
(wrapped) then clean the copied sink up (wrapped). -/
def closeShutdownStep (now : PyDateTime) (o : Int → FailOracle)
    (acc : BotState × List CleanStep) (gv : Int × PiaDiscordSink) :
    BotState × List CleanStep :=
  let (st, tr) := acc
  let st :=
    if (o gv.1).finalize_raises then st
    else finalizeSessionMetaForGuild st gv.1 now
  let tr := tr ++ [CleanStep.finalizeMeta]
  let st :=
    if (o gv.1).cleanup_raises then st
    else
      let (_, disk) :=
        gv.2.cleanup (o gv.1).pydubAvailable (o gv.1).convOk st.disk
      { st with disk := disk }
  (st, tr ++ [CleanStep.closeSink])

/-- Method `close` (process shutdown): for every active sink of a copy
of the map, finalize (wrapped) then clean up (wrapped), then clear both
per-guild maps.  No timer is cancelled on this path. -/
def closeShutdown (st : BotState) (now : PyDateTime)
    (o : Int → FailOracle) : BotState × List CleanStep :=
  let folded := st.current_sink_by_guild.foldl (closeShutdownStep now o)
    (st, ([] : List CleanStep))
  ({ folded.1 with
     current_sink_by_guild := [], current_session_by_guild := [] },
   folded.2 ++ [CleanStep.dropState])

/-- Method `_create_session_for_guild`: build the session record,
derive the standardized paths and snapshot the guild's player map. -/
def createSessionForGuild (st : BotState) (guild_id : Int) (mode : String)
    (label : Option String) (now : PyDateTime) : AudioSessionInfo :=
  let session_id := make_session_id guild_id now
  let base_dir := st.settings.logs_dir ++ "/" ++
    st.settings.audio_sessions_subdir ++ "/" ++ session_id
  let session : AudioSessionInfo :=
    { session_id := session_id, guild_id := guild_id, mode := mode,
      started_at := now, ended_at := none, label := label,
      base_dir := base_dir, audio_dir := base_dir,
      meta_path := base_dir ++ "/session_meta.json",
      players := [], extra := [] }
  ((dget st.player_map guild_id).getD []).foldl
    (fun s uv => s.add_or_update_player uv.1 (some uv.2.1) (some uv.2.2))
    session

/-- Method `_start_sink_for_session` (with `force_archive=True` as in
`/record`): raises (`none`) without a voice client; otherwise build the
archiver (48 kHz / 16-bit / stereo) and the sink, register both in the
per-guild maps and start the max-duration timer. -/
def startSinkForSession (st : BotState) (guild_id : Int)
    (session : AudioSessionInfo) (vc_available : Bool) : Option BotState :=
  if !vc_available then none
  else
    let base_dir := st.settings.logs_dir ++ "/" ++
      st.settings.audio_sessions_subdir
    let archiver : AudioArchiver :=
      { base_dir := base_dir, session_id := session.session_id,
        channels := 2, sample_width := 2, sample_rate := 48000,
        audio_format := st.settings.audio_format,
        session_path := base_dir ++ "/" ++ session.session_id,
        files := [], bytes_written := 0, dir := [] }
    let sink := PiaDiscordSink.create guild_id session.mode
      ((dget st.player_map guild_id).getD []) (some archiver)
      (some session.meta_path)
    let st := { st with
      current_sink_by_guild := dinsert st.current_sink_by_guild guild_id sink,
      current_session_by_guild :=
        dinsert st.current_session_by_guild guild_id session }
    some (startSessionTimer st guild_id)

/-- Method `start_record_session`: a no-op (logged warning) when a sink
is already registered for the guild; otherwise create the session and
start the sink, logging (and registering nothing) when that raises. -/
def startRecordSession (st : BotState) (guild_id : Int)
    (label : Option String) (now : PyDateTime) (vc_available : Bool) :
    BotState :=
  if (dget st.current_sink_by_guild guild_id).isSome then st
  else
    let session := createSessionForGuild st guild_id "record_only" label now
    match startSinkForSession st guild_id session vc_available with
    | some started => started
    | none => st

end PiaPiaBot

/-! ## Concrete fixtures used by the witnesses -/

/-- Settings of a bot archiving to mp3 with a 6-hour session cap. -/
def sampleSettings : Settings :=
  { audio_format := "mp3", logs_dir := ".logs",
    audio_sessions_subdir := "audio", max_session_duration_minutes := 360 }

/-- Archiver of an active session with one open per-user WAV. -/
def sampleArchiver : AudioArchiver :=
  { base_dir := ".logs/audio", session_id := "s1", channels := 2,
    sample_width := 2, sample_rate := 48000, audio_format := "mp3",
    session_path := ".logs/audio/s1", files := [(1, ()), (2, ())],
    bytes_written := 4, dir := ["user_1.wav", "user_2.wav"] }

/-- Archiver that has not received any audio yet. -/
def emptyArchiver : AudioArchiver :=
  { base_dir := ".logs/audio", session_id := "s2", channels := 2,
    sample_width := 2, sample_rate := 48000, audio_format := "mp3",
    session_path := ".logs/audio/s2", files := [], bytes_written := 0,
    dir := [] }

/-- Record-only sink of the active sample session. -/
def sampleSink : PiaDiscordSink :=
  PiaDiscordSink.create 7 "record_only" [] (some sampleArchiver)
    (some ".logs/audio/s1/session_meta.json")

/-- Session record of the active sample session. -/
def sampleSession : AudioSessionInfo :=
  { session_id := "s1", guild_id := 7, mode := "record_only",
    started_at := 0, ended_at := none, label := none,
    base_dir := ".logs/audio/s1", audio_dir := ".logs/audio/s1",
    meta_path := ".logs/audio/s1/session_meta.json",
    players := [], extra := [] }

/-- Bot state with one active recording session for guild 7. -/
def sampleBot : BotState :=
  { settings := sampleSettings, player_map := [],
    current_session_by_guild := [(7, sampleSession)],
    current_sink_by_guild := [(7, sampleSink)],
    session_timers := [(7, TimerStatus.running)], disk := [] }

/-- Tracked speaker whose last packet arrived at `t = 1`. -/
def sampleSpeakerInfo : SpeakerInfo :=
  { user_id := 1, player := some "alice", character := some "Azur",
    start_time := 1, last_audio_time := 1 }

/-- Segmentation buffer tracking the sample speaker. -/
def sampleBuffer : AudioBuffer :=
  { max_speakers := -1, data_limit := 200, channels := 2, sample_width := 2,
    sample_rate := 48000, speakers := [(1, sampleSpeakerInfo)],
    buffers := [(1, [[0, 1]])] }

/-- Transcriber whose local backend raises on every call. -/
def sampleFailingTranscriber : Transcriber :=
  { mode := "local", language := "fr", min_duration := 1/10,
    client := none, model := some (fun _ => Except.error ()) }

/-- Blob of a single 48 kHz stereo frame: about 21 µs of audio. -/
def sampleShortBlob : WavBlob :=
  { channels := 2, sample_width := 2, sample_rate := 48000,
    pcm := [[0, 0, 0, 0]] }

/-- Blob two seconds long (1 Hz mono, one byte per sample). -/
def sampleLongBlob : WavBlob :=
  { channels := 1, sample_width := 1, sample_rate := 1, pcm := [[0, 0]] }

/-! ## C1 -/

/-- C1: if a sink is already registered for a guild in
`current_sink_by_guild`, a further `start_record_session` for that
guild returns without registering anything: the whole bot state —
the active session object, its sink and its timer included — is left
unchanged. -/
theorem C1_one_active_session_per_guild (st : BotState) (guild_id : Int)
    (sink : PiaDiscordSink) (label : Option String) (now : PyDateTime)
    (vc_available : Bool)
    (h : dget st.current_sink_by_guild guild_id = some sink) :
    PiaPiaBot.startRecordSession st guild_id label now vc_available = st := by
  unfold PiaPiaBot.startRecordSession
  simp [h]

/-- C1 witness: starting a second session for guild 7 while the sample
session is active changes nothing. -/
theorem C1_one_active_session_per_guild_witness :
    PiaPiaBot.startRecordSession sampleBot 7 (some "again") 5 true =
      sampleBot :=
  C1_one_active_session_per_guild sampleBot 7 sampleSink (some "again") 5 true
    rfl

/-! ## C5 -/

/-- C5: `is_speaker_done` holds exactly when the wall-clock gap since
the speaker's `last_audio_time` is at least the silence threshold — in
particular a gap exactly equal to the threshold counts as done — and an
untracked speaker id is never done. -/
theorem C5_is_speaker_done_threshold (buf : AudioBuffer) (now : PyTime)
    (user_id : Int) (threshold : PyTime) :
    (buf.is_speaker_done now user_id threshold = true ↔
      ∃ info, dget buf.speakers user_id = some info ∧
        threshold ≤ now - info.last_audio_time) ∧
    (dget buf.speakers user_id = none →
      buf.is_speaker_done now user_id threshold = false) := by
  constructor
  · unfold AudioBuffer.is_speaker_done
    cases h : dget buf.speakers user_id with
    | none => simp
    | some info => simp [ge_iff_le]
  · intro h
    unfold AudioBuffer.is_speaker_done
    simp [h]

/-- C5 witness: at `now = 3`, the sample speaker's gap is exactly the
threshold `2` and the speaker counts as done; the untracked id 99 does
not. -/
theorem C5_is_speaker_done_threshold_witness :
    sampleBuffer.is_speaker_done 3 1 2 = true ∧
    sampleBuffer.is_speaker_done 3 99 2 = false :=
  ⟨(C5_is_speaker_done_threshold sampleBuffer 3 1 2).1.mpr
      ⟨sampleSpeakerInfo, by decide, by norm_num [sampleSpeakerInfo]⟩,
   (C5_is_speaker_done_threshold sampleBuffer 3 99 2).2 (by decide)⟩

/-! ## C6 -/

/-- C6: a blob shorter than the configured minimum duration yields the
empty string with zero backend invocations; and whichever backend is
configured, a backend error degrades to the empty string — the call
returns normally instead of propagating the exception. -/
theorem C6_transcribe_gating_and_degrade (t : Transcriber) (blob : WavBlob) :
    (Transcriber.getWavDuration blob < t.min_duration →
      t.transcribe_wav blob = ("", 0)) ∧
    (∀ call e, t.mode = "openai" → t.client = some call →
      call blob = Except.error e → (t.transcribe_wav blob).1 = "") ∧
    (∀ call e, t.mode ≠ "openai" → t.model = some call →
      call blob = Except.error e → (t.transcribe_wav blob).1 = "") := by
  refine ⟨?_, ?_, ?_⟩
  · intro h
    unfold Transcriber.transcribe_wav
    simp [h]
  · intro call e hm hc herr
    unfold Transcriber.transcribe_wav
    by_cases hd : Transcriber.getWavDuration blob < t.min_duration
    · simp [hd]
    · simp [hd, hm, hc, herr]
  · intro call e hm hc herr
    unfold Transcriber.transcribe_wav
    by_cases hd : Transcriber.getWavDuration blob < t.min_duration
    · simp [hd]
    · simp [hd, hm, hc, herr]

/-- C6 witness: the sub-minimum blob is gated out with zero backend
calls, and the raising backend on a long-enough blob degrades to the
empty string. -/
theorem C6_transcribe_gating_and_degrade_witness :
    sampleFailingTranscriber.transcribe_wav sampleShortBlob = ("", 0) ∧
    (sampleFailingTranscriber.transcribe_wav sampleLongBlob).1 = "" :=
  ⟨(C6_transcribe_gating_and_degrade sampleFailingTranscriber
      sampleShortBlob).1
      (by norm_num [Transcriber.getWavDuration, WavBlob.nframes,
        sampleShortBlob, sampleFailingTranscriber]),
   (C6_transcribe_gating_and_degrade sampleFailingTranscriber
      sampleLongBlob).2.2 (fun _ => Except.error ()) () (by decide) rfl rfl⟩

/-! ## C3 -/

/-- Format conversion never touches the `_files` handle dict. -/
theorem convertToTargetFormat_files (a : AudioArchiver) (p : Bool)
    (ok : String → Bool) : (a.convertToTargetFormat p ok).files = a.files := by
  unfold AudioArchiver.convertToTargetFormat
  split_ifs <;> rfl

/-- Closing an archiver with no open handle is the identity. -/
theorem close_of_no_files (a : AudioArchiver) (p : Bool) (ok : String → Bool)
    (h : a.files.isEmpty = true) : a.close p ok = a := by
  simp [AudioArchiver.close, h]

/-- After any `close`, the `_files` handle dict is empty. -/
theorem close_files_empty (a : AudioArchiver) (p : Bool) (ok : String → Bool)
    (h : a.files.isEmpty = false) : (a.close p ok).files = [] := by
  unfold AudioArchiver.close
  rw [h]
  simp [convertToTargetFormat_files]

/-- C3: archiver `close` and orchestrator finalize are idempotent: a
second `close` (under any conversion conditions) leaves the archiver
state — directory listing included — exactly as the first left it; a
second finalize for the same guild reproduces the bot state, on-disk
`session_meta.json` included; and `ended_at` is set by the first
finalize only. -/
theorem C3_close_and_finalize_idempotent :
    (∀ (a : AudioArchiver) (p₁ p₂ : Bool) (ok₁ ok₂ : String → Bool),
      (a.close p₁ ok₁).close p₂ ok₂ = a.close p₁ ok₁) ∧
    (∀ (st : BotState) (guild_id : Int) (now₁ now₂ : PyDateTime),
      PiaPiaBot.finalizeSessionMetaForGuild
        (PiaPiaBot.finalizeSessionMetaForGuild st guild_id now₁)
        guild_id now₂ =
      PiaPiaBot.finalizeSessionMetaForGuild st guild_id now₁) ∧
    (∀ (st : BotState) (guild_id : Int) (now : PyDateTime)
        (s : AudioSessionInfo),
      dget st.current_session_by_guild guild_id = some s →
      s.ended_at = none →
      dget (PiaPiaBot.finalizeSessionMetaForGuild st guild_id
        now).current_session_by_guild guild_id =
        some { s with ended_at := some now }) := by
  refine ⟨?_, ?_, ?_⟩
  · intro a p₁ p₂ ok₁ ok₂
    by_cases h : a.files.isEmpty
    · rw [close_of_no_files a p₁ ok₁ h, close_of_no_files a p₂ ok₂ h]
    · exact close_of_no_files (a.close p₁ ok₁) p₂ ok₂
        (by rw [close_files_empty a p₁ ok₁ (by simpa using h)]; rfl)
  · intro st guild_id now₁ now₂
    unfold PiaPiaBot.finalizeSessionMetaForGuild
    cases h : dget st.current_session_by_guild guild_id with
    | none => simp [h]
    | some s =>
      simp only [h]
      set s₁ := if s.ended_at.isNone then { s with ended_at := some now₁ }
        else s with hs₁
      have hs₁e : s₁.ended_at.isNone = false := by
        cases he : s.ended_at <;> simp [hs₁, he]
      have hmeta : s₁.meta_path = s.meta_path := by
        cases he : s.ended_at <;> simp [hs₁, he]
      simp only [dget_dinsert_self, hs₁e, Bool.false_eq_true, if_false]
      unfold AudioSessionInfo.save_json
      by_cases hm : s₁.meta_path.isEmpty
      · simp [hm, dinsert_dinsert_same]
      · simp only [hm, Bool.false_eq_true, if_false]
        simp [dget_dinsert_self, dinsert_dinsert_same]
  · intro st guild_id now s h he
    unfold PiaPiaBot.finalizeSessionMetaForGuild
    simp [h, he, dget_dinsert_self]

/-- C3 witness: finalizing the sample bot twice yields the same state
as finalizing once, the first finalize stamps `ended_at = 42`, and the
sample archiver's second close is the first's result. -/
theorem C3_close_and_finalize_idempotent_witness :
    ((sampleArchiver.close true (fun _ => true)).close false (fun _ => false)
       = sampleArchiver.close true (fun _ => true)) ∧
    (PiaPiaBot.finalizeSessionMetaForGuild
       (PiaPiaBot.finalizeSessionMetaForGuild sampleBot 7 42) 7 77 =
     PiaPiaBot.finalizeSessionMetaForGuild sampleBot 7 42) ∧
    dget (PiaPiaBot.finalizeSessionMetaForGuild sampleBot 7
        42).current_session_by_guild 7 =
      some { sampleSession with ended_at := some 42 } :=
  ⟨C3_close_and_finalize_idempotent.1 sampleArchiver true false
      (fun _ => true) (fun _ => false),
   C3_close_and_finalize_idempotent.2.1 sampleBot 7 42 77,
   C3_close_and_finalize_idempotent.2.2 sampleBot 7 42 sampleSession rfl rfl⟩

/-! ## C9 -/

theorem dget_dmodify_self {κ α : Type} [DecidableEq κ]
    (d : List (κ × α)) (k : κ) (f : α → α) :
    dget (dmodify d k f) k = (dget d k).map f := by
  induction d with
  | nil => simp [dmodify]
  | cons hd tl ih =>
    obtain ⟨k₀, v₀⟩ := hd
    by_cases h : k₀ = k <;> simp [dmodify, dget, h, ih]

theorem dget_dmodify_ne {κ α : Type} [DecidableEq κ]
    (d : List (κ × α)) (k k' : κ) (f : α → α) (h : k ≠ k') :
    dget (dmodify d k f) k' = dget d k' := by
  induction d with
  | nil => simp [dmodify]
  | cons hd tl ih =>
    obtain ⟨k₀, v₀⟩ := hd
    by_cases h₀ : k₀ = k
    · subst h₀
      simp [dmodify, dget, h]
    · simp [dmodify, h₀, dget, ih]

theorem derase_length {κ α : Type} [DecidableEq κ]
    (d : List (κ × α)) (k : κ) (v : α) (h : dget d k = some v) :
    (derase d k).length + 1 = d.length := by
  induction d with
  | nil => simp [dget] at h
  | cons hd tl ih =>
    obtain ⟨k₀, v₀⟩ := hd
    by_cases h₀ : k₀ = k
    · simp [derase, h₀]
    · simp only [dget, if_neg h₀] at h
      simp [derase, h₀, ih h]

/-- Flushing a tracked speaker erases it from both internal maps,
whether or not it had queued chunks. -/
theorem flush_speaker_state (buf : AudioBuffer) (user_id : Int)
    (info : SpeakerInfo) (h : dget buf.speakers user_id = some info) :
    (buf.flush_speaker user_id).2 =
      { buf with speakers := derase buf.speakers user_id,
                 buffers := derase buf.buffers user_id } := by
  unfold AudioBuffer.flush_speaker
  simp only [h]
  split_ifs <;> rfl

/-- `add_audio` never removes a tracked speaker. -/
theorem add_audio_keeps_speakers (b : AudioBuffer) (u : Int) (d : Bytes)
    (t : PyTime) (p c : Option String) (u' : Int)
    (h : (dget b.speakers u').isSome) :
    (dget (b.add_audio u d t p c).speakers u').isSome := by
  unfold AudioBuffer.add_audio
  cases hu : dget b.speakers u with
  | some i =>
    simp only [hu, Option.isNone_some, Bool.false_eq_true, if_false]
    by_cases he : u = u'
    · subst he
      simp [dget_dmodify_self, hu]
    · simpa [dget_dmodify_ne _ _ _ _ he] using h
  | none =>
    simp only [hu, Option.isNone_none]
    by_cases hcap : b.max_speakers > 0 ∧
        (b.speakers.length : Int) ≥ b.max_speakers
    · simpa [hcap] using h
    · simp only [hcap, if_true, if_false, reduceIte]
      by_cases he : u = u'
      · subst he
        simp [dget_dmodify_self, dget_dinsert_self]
      · rw [dget_dmodify_ne _ _ _ _ he, dget_dinsert_ne _ _ _ _ he]
        exact h

/-- C9: after `flush_speaker` removes a speaker, an `add_audio` for the
same id (the cap cannot be in the way, one slot having just been freed)
registers a fresh `SpeakerState` whose `start_time` and
`last_audio_time` are the new packet's timestamp and whose queue holds
exactly the new chunk — nothing of the previous utterance survives;
`add_audio` never removes any tracked speaker; and flushing touches no
other speaker's state. -/
theorem C9_flush_then_add_fresh (buf : AudioBuffer) (user_id : Int)
    (data : Bytes) (ts : PyTime) (player character : Option String)
    (info : SpeakerInfo)
    (htr : dget buf.speakers user_id = some info)
    (hnd : (buf.speakers.map Prod.fst).Nodup)
    (hcap : buf.max_speakers ≤ 0 ∨
      (buf.speakers.length : Int) ≤ buf.max_speakers)
    (hlim : 1 ≤ buf.data_limit) :
    dget (buf.flush_speaker user_id).2.speakers user_id = none ∧
    dget ((buf.flush_speaker user_id).2.add_audio user_id data ts player
        character).speakers user_id =
      some { user_id := user_id, player := player, character := character,
             start_time := ts, last_audio_time := ts } ∧
    dget ((buf.flush_speaker user_id).2.add_audio user_id data ts player
        character).buffers user_id = some [data] ∧
    (∀ (b : AudioBuffer) (u : Int) (d : Bytes) (t : PyTime)
        (p c : Option String) (u' : Int),
      (dget b.speakers u').isSome →
      (dget (b.add_audio u d t p c).speakers u').isSome) ∧
    (∀ u', u' ≠ user_id →
      dget (buf.flush_speaker user_id).2.speakers u' =
        dget buf.speakers u') := by
  rw [flush_speaker_state buf user_id info htr]
  have herased : dget (derase buf.speakers user_id) user_id = none :=
    dget_derase_self buf.speakers user_id hnd
  have hlen := derase_length buf.speakers user_id info htr
  have hnocap : ¬(buf.max_speakers > 0 ∧
      ((derase buf.speakers user_id).length : Int) ≥ buf.max_speakers) := by
    rintro ⟨h1, h2⟩
    rcases hcap with h3 | h3 <;> omega
  refine ⟨herased, ?_, ?_, add_audio_keeps_speakers, ?_⟩
  · unfold AudioBuffer.add_audio
    simp only [herased, Option.isNone_none, hnocap, if_true, if_false,
      reduceIte]
    rw [dget_dmodify_self, dget_dinsert_self]
    rfl
  · unfold AudioBuffer.add_audio
    simp only [herased, Option.isNone_none, hnocap, if_true, if_false,
      reduceIte]
    rw [dget_dmodify_self, dget_dinsert_self]
    have hz : 1 - buf.data_limit = 0 := by omega
    simp [dequePush, hz]
  · intro u' hne
    exact dget_derase_ne buf.speakers user_id u' (fun he => hne he.symm)

/-- C9 witness: flushing speaker 1 of the sample buffer and feeding a
new packet at `t = 9` yields a fresh state timed at 9 with only the new
chunk queued. -/
theorem C9_flush_then_add_fresh_witness :
    dget ((sampleBuffer.flush_speaker 1).2.add_audio 1 [7] 9 none
        none).speakers 1 =
      some { user_id := 1, player := none, character := none,
             start_time := 9, last_audio_time := 9 } ∧
    dget ((sampleBuffer.flush_speaker 1).2.add_audio 1 [7] 9 none
        none).buffers 1 = some [[7]] :=
  ⟨(C9_flush_then_add_fresh sampleBuffer 1 [7] 9 none none
      sampleSpeakerInfo (by decide) (by decide) (Or.inl (by decide))
      (by decide)).2.1,
   (C9_flush_then_add_fresh sampleBuffer 1 [7] 9 none none
      sampleSpeakerInfo (by decide) (by decide) (Or.inl (by decide))
      (by decide)).2.2.1⟩

/-! ## C2 -/

/-- Every file the archiver creates is named `user_{id}.wav`, so it
ends in `.wav` and is picked up by the conversion loop. -/
theorem userWavName_endsWith_wav (user_id : Int) :
    pyEndsWith (userWavName user_id) ".wav" = true := by
  unfold pyEndsWith userWavName
  rw [String.data_append]
  simp [List.isSuffixOf, List.isPrefixOf_iff_prefix]

/-- A conversion step for a file other than `y` (and whose target is
not `y`) does not change how many times `y` occurs in the session
directory. -/
theorem convertStep_count_other (fmt : String) (ok : String → Bool)
    (cur : List String) (X y : String) (hXy : X ≠ y)
    (hTy : pyReplace X ".wav" ("." ++ fmt) ≠ y) :
    (convertStep fmt ok cur X).count y = cur.count y := by
  unfold convertStep
  split_ifs with h1 h2
  · rfl
  · rw [List.count_erase_of_ne (fun he => hXy he.symm)]
    split_ifs with h3
    · rfl
    · simp [List.count_append, List.count_singleton', hTy]
  · rfl

/-- The conversion step for a successfully converting `.wav` file
removes the sole copy of the source and leaves exactly one copy of the
target. -/
theorem convertStep_self_success (fmt : String) (ok : String → Bool)
    (cur : List String) (X : String) (hok : ok X = true)
    (hwav : pyEndsWith X ".wav" = true)
    (htne : pyReplace X ".wav" ("." ++ fmt) ≠ X)
    (hcnt : cur.count X = 1)
    (htgt : cur.count (pyReplace X ".wav" ("." ++ fmt)) = 0) :
    (convertStep fmt ok cur X).count X = 0 ∧
    (convertStep fmt ok cur X).count (pyReplace X ".wav" ("." ++ fmt)) = 1
    := by
  unfold convertStep
  rw [hwav]
  simp only [Bool.not_true, Bool.false_eq_true, if_false, hok, if_true,
    reduceIte]
  have hnotmem : pyReplace X ".wav" ("." ++ fmt) ∉ cur :=
    List.count_eq_zero.mp htgt
  rw [if_neg hnotmem]
  constructor
  · rw [List.count_erase_self]
    simp [List.count_append, List.count_singleton', hcnt, htne]
  · rw [List.count_erase_of_ne htne]
    simp [List.count_append, List.count_singleton', htgt]

/-- Invariant preservation along the conversion fold. -/
theorem foldl_convert_inv (fmt : String) (ok : String → Bool)
    (P : List String → Prop) (snap : List String)
    (hstep : ∀ X ∈ snap, ∀ cur, P cur → P (convertStep fmt ok cur X)) :
    ∀ cur, P cur → P (snap.foldl (convertStep fmt ok) cur) := by
  induction snap with
  | nil => intro cur h; exact h
  | cons X rest ih =>
    intro cur h
    exact ih (fun Y hY cur₂ => hstep Y (List.mem_cons_of_mem _ hY) cur₂) _
      (hstep X (List.mem_cons_self _ _) cur h)

/-- A WAV whose conversion fails survives the whole conversion fold:
only its own (failing) step could have removed it. -/
theorem convert_fold_keeps_failed (fmt : String) (ok : String → Bool)
    (wav : String) (hok : ok wav = false) (snap : List String)
    (cur : List String) (hmem : wav ∈ cur) :
    wav ∈ snap.foldl (convertStep fmt ok) cur := by
  refine foldl_convert_inv fmt ok (fun c => wav ∈ c) snap ?_ cur hmem
  intro X _ c h
  unfold convertStep
  split_ifs with h1 h2
  · exact h
  · have hXwav : X ≠ wav := by
      rintro rfl
      rw [hok] at h2
      exact absurd h2 (by simp)
    refine (List.mem_erase_of_ne (Ne.symm hXwav)).mpr ?_
    split_ifs with h3
    · exact h
    · exact List.mem_append_left _ h
  · exact h

/-- Directory listing after `close` for a non-WAV target: the
conversion fold when `pydub` is importable, the untouched listing when
it is not. -/
theorem close_dir_eq (a : AudioArchiver) (pydub : Bool) (ok : String → Bool)
    (hfmt : a.audio_format ≠ "wav") (hfiles : a.files.isEmpty = false) :
    (a.close pydub ok).dir =
      if pydub then a.dir.foldl (convertStep a.audio_format ok) a.dir
      else a.dir := by
  unfold AudioArchiver.close AudioArchiver.convertToTargetFormat
  rw [hfiles]
  cases pydub <;> simp [hfmt]

/-- C2: for a target format other than `wav`, `close` is total (no
exception escapes the conversion, which is modelled by `close` being a
function) and treats each speaker's raw file safely: if `pydub` is
unavailable or the conversion of that speaker's WAV fails, the raw
`user_{id}.wav` is still in the session directory afterwards; if the
conversion succeeds, the raw WAV is gone and exactly one converted file
for that speaker remains.  The hypotheses state facts of every
reachable directory: listings have no duplicates, the converted name is
fresh, and no other file's conversion target collides with this
speaker's names. -/
theorem C2_conversion_safety (a : AudioArchiver) (user_id : Int)
    (pydub : Bool) (ok : String → Bool)
    (hfmt : a.audio_format ≠ "wav")
    (hfiles : a.files.isEmpty = false)
    (hmem : userWavName user_id ∈ a.dir)
    (hnd : a.dir.Nodup)
    (hfresh : pyReplace (userWavName user_id) ".wav" ("." ++ a.audio_format)
      ∉ a.dir)
    (htne : pyReplace (userWavName user_id) ".wav" ("." ++ a.audio_format)
      ≠ userWavName user_id)
    (hothers : ∀ X ∈ a.dir, X ≠ userWavName user_id →
      pyReplace X ".wav" ("." ++ a.audio_format) ≠ userWavName user_id ∧
      pyReplace X ".wav" ("." ++ a.audio_format) ≠
        pyReplace (userWavName user_id) ".wav" ("." ++ a.audio_format)) :
    ((pydub = false ∨ ok (userWavName user_id) = false) →
      userWavName user_id ∈ (a.close pydub ok).dir) ∧
    (pydub = true → ok (userWavName user_id) = true →
      userWavName user_id ∉ (a.close pydub ok).dir ∧
      (a.close pydub ok).dir.count
        (pyReplace (userWavName user_id) ".wav" ("." ++ a.audio_format))
        = 1) := by
  rw [close_dir_eq a pydub ok hfmt hfiles] at *
  set wav := userWavName user_id with hwavdef
  set tgt := pyReplace (userWavName user_id) ".wav" ("." ++ a.audio_format)
    with htgtdef
  constructor
  · rintro (hp | hp)
    · simp [hp, hmem]
    · split_ifs with hpy
      · exact convert_fold_keeps_failed a.audio_format ok wav hp a.dir
          a.dir hmem
      · exact hmem
  · intro hpy hok
    subst hpy
    simp only [if_true, reduceIte]
    have hcnt1 : a.dir.count wav = 1 := List.count_eq_one_of_mem hnd hmem
    have htgt0 : a.dir.count tgt = 0 := List.count_eq_zero.mpr hfresh
    obtain ⟨pre, post, hsplit⟩ := List.append_of_mem hmem
    have hprepost : pre.count wav = 0 ∧ post.count wav = 0 := by
      rw [hsplit] at hcnt1
      simp only [List.count_append, List.count_cons_self] at hcnt1
      omega
    have hwavpre : wav ∉ pre := List.count_eq_zero.mp hprepost.1
    have hwavpost : wav ∉ post := List.count_eq_zero.mp hprepost.2
    -- every element of the listing is safe for the step lemmas
    have hsafe : ∀ X, X ∈ a.dir → X ≠ wav →
        X ≠ tgt ∧ pyReplace X ".wav" ("." ++ a.audio_format) ≠ wav ∧
        pyReplace X ".wav" ("." ++ a.audio_format) ≠ tgt := by
      intro X hX hne
      refine ⟨fun he => hfresh (he ▸ hX), (hothers X hX hne).1,
        (hothers X hX hne).2⟩
    -- phase A: before the speaker's own step
    have phaseA : (pre.foldl (convertStep a.audio_format ok) a.dir).count wav
        = 1 ∧
        (pre.foldl (convertStep a.audio_format ok) a.dir).count tgt = 0 := by
      refine foldl_convert_inv a.audio_format ok
        (fun c => c.count wav = 1 ∧ c.count tgt = 0) pre ?_ a.dir
        ⟨hcnt1, htgt0⟩
      intro X hX c hc
      have hXwav : X ≠ wav := fun he => hwavpre (he ▸ hX)
      have hXdir : X ∈ a.dir := by
        rw [hsplit]
        exact List.mem_append_left _ hX
      obtain ⟨hXtgt, hT1, hT2⟩ := hsafe X hXdir hXwav
      exact ⟨by rw [convertStep_count_other _ _ _ _ _ hXwav hT1]; exact hc.1,
             by rw [convertStep_count_other _ _ _ _ _ hXtgt hT2]; exact hc.2⟩
    -- the speaker's own step
    have hself := convertStep_self_success a.audio_format ok
      (pre.foldl (convertStep a.audio_format ok) a.dir) wav hok
      (userWavName_endsWith_wav user_id) htne phaseA.1 phaseA.2
    -- phase B: after the speaker's step
    have phaseB : ((wav :: post).foldl (convertStep a.audio_format ok)
          (pre.foldl (convertStep a.audio_format ok) a.dir)).count wav = 0 ∧
        ((wav :: post).foldl (convertStep a.audio_format ok)
          (pre.foldl (convertStep a.audio_format ok) a.dir)).count tgt
          = 1 := by
      rw [List.foldl_cons]
      refine foldl_convert_inv a.audio_format ok
        (fun c => c.count wav = 0 ∧ c.count tgt = 1) post ?_ _ hself
      intro X hX c hc
      have hXwav : X ≠ wav := fun he => hwavpost (he ▸ hX)
      have hXdir : X ∈ a.dir := by
        rw [hsplit]
        exact List.mem_append_right _ (List.mem_cons_of_mem _ hX)
      obtain ⟨hXtgt, hT1, hT2⟩ := hsafe X hXdir hXwav
      exact ⟨by rw [convertStep_count_other _ _ _ _ _ hXwav hT1]; exact hc.1,
             by rw [convertStep_count_other _ _ _ _ _ hXtgt hT2]; exact hc.2⟩
    have hfold : a.dir.foldl (convertStep a.audio_format ok) a.dir =
        (wav :: post).foldl (convertStep a.audio_format ok)
          (pre.foldl (convertStep a.audio_format ok) a.dir) := by
      nth_rewrite 2 [hsplit]
      rw [List.foldl_append]
    rw [hfold]
    exact ⟨List.count_eq_zero.mp phaseB.1, phaseB.2⟩

/-- C2 witness: converting the sample mp3 session with a tool that only
converts `user_1.wav` keeps `user_2.wav`, removes `user_1.wav` and
leaves exactly one `user_1.mp3`. -/
theorem C2_conversion_safety_witness :
    userWavName 2 ∈ (sampleArchiver.close true
      (fun n => n = "user_1.wav")).dir ∧
    userWavName 1 ∉ (sampleArchiver.close true
      (fun n => n = "user_1.wav")).dir ∧
    (sampleArchiver.close true (fun n => n = "user_1.wav")).dir.count
      (pyReplace (userWavName 1) ".wav" ("." ++
        sampleArchiver.audio_format)) = 1 :=
  ⟨(C2_conversion_safety sampleArchiver 2 true (fun n => n = "user_1.wav")
      (by decide) (by decide) (by decide) (by decide) (by decide)
      (by decide) (by decide)).1 (Or.inr (by decide)),
   ((C2_conversion_safety sampleArchiver 1 true (fun n => n = "user_1.wav")
      (by decide) (by decide) (by decide) (by decide) (by decide)
      (by decide) (by decide)).2 rfl (by decide)).1,
   ((C2_conversion_safety sampleArchiver 1 true (fun n => n = "user_1.wav")
      (by decide) (by decide) (by decide) (by decide) (by decide)
      (by decide) (by decide)).2 rfl (by decide)).2⟩

/-! ## C4 -/

/-- Folding `d[k] = v` over fresh, pairwise distinct keys just appends
the pairs. -/
theorem foldl_dinsert_of_disjoint {κ α : Type} [DecidableEq κ]
    (l : List (κ × α)) : ∀ acc : List (κ × α),
    (∀ k ∈ l.map Prod.fst, k ∉ acc.map Prod.fst) →
    (l.map Prod.fst).Nodup →
    l.foldl (fun d kv => dinsert d kv.1 kv.2) acc = acc ++ l := by
  induction l with
  | nil =>
    intro acc _ _
    simp
  | cons hd tl ih =>
    obtain ⟨k, v⟩ := hd
    intro acc hdisj hnd
    simp only [List.map_cons, List.nodup_cons] at hnd
    rw [List.foldl_cons, dinsert_of_not_mem acc k v (hdisj k (by simp))]
    rw [ih (acc ++ [(k, v)]) ?_ hnd.2]
    · simp
    · intro k₂ hk₂
      simp only [List.map_append, List.map_cons, List.map_nil,
        List.mem_append, List.mem_cons, List.not_mem_nil, or_false]
      push_neg
      exact ⟨hdisj k₂ (by simp [hk₂]), fun he => hnd.1 (he ▸ hk₂)⟩

/-- `dict(mapping)` is the identity on a mapping with distinct keys. -/
theorem pyDictOf_eq_self (kvs : List (JKey × JValue))
    (h : (kvs.map Prod.fst).Nodup) : pyDictOf kvs = kvs := by
  simpa using foldl_dinsert_of_disjoint kvs [] (by simp) h

/-- `PlayerSessionInfo` round trip: `from_dict` inverts `to_dict`. -/
theorem PlayerSessionInfo.from_dict_to_dict (p : PlayerSessionInfo) :
    PlayerSessionInfo.from_dict p.to_dict = some p := by
  obtain ⟨uid, pl, ch, fo, fs⟩ := p
  cases pl <;> cases ch <;> cases fo <;> cases fs <;> rfl

/-- Parsing a dict-shaped `players` value produced by `to_dict` appends
the original pairs to the accumulator. -/
theorem parsePlayersObj_map (ps : List (Int × PlayerSessionInfo)) :
    ∀ acc : List (Int × PlayerSessionInfo),
    (∀ k ∈ ps.map Prod.fst, k ∉ acc.map Prod.fst) →
    (ps.map Prod.fst).Nodup →
    parsePlayersObj (ps.map (fun kv => (JKey.ofId kv.1, kv.2.to_dict))) acc
      = some (acc ++ ps) := by
  induction ps with
  | nil =>
    intro acc _ _
    simp [parsePlayersObj]
  | cons hd tl ih =>
    obtain ⟨k, p⟩ := hd
    intro acc hdisj hnd
    simp only [List.map_cons, List.nodup_cons] at hnd
    simp only [List.map_cons, parsePlayersObj, JKey.toInt,
      PlayerSessionInfo.from_dict_to_dict]
    show parsePlayersObj (tl.map (fun kv => (JKey.ofId kv.1, kv.2.to_dict)))
      (dinsert acc k p) = some (acc ++ (k, p) :: tl)
    rw [dinsert_of_not_mem acc k p (hdisj k (by simp))]
    rw [ih (acc ++ [(k, p)]) ?_ hnd.2]
    · simp
    · intro k₂ hk₂
      simp only [List.map_append, List.map_cons, List.map_nil,
        List.mem_append, List.mem_cons, List.not_mem_nil, or_false]
      push_neg
      exact ⟨hdisj k₂ (by simp [hk₂]), fun he => hnd.1 (he ▸ hk₂)⟩

/-- Parsing a list-shaped `players` value whose entries carry the same
ids as the original keys appends the original pairs. -/
theorem parsePlayersList_map (ps : List (Int × PlayerSessionInfo)) :
    ∀ acc : List (Int × PlayerSessionInfo),
    (∀ k ∈ ps.map Prod.fst, k ∉ acc.map Prod.fst) →
    (ps.map Prod.fst).Nodup →
    (∀ kv ∈ ps, kv.2.user_id = kv.1) →
    parsePlayersList (ps.map (fun kv => kv.2.to_dict)) acc
      = some (acc ++ ps) := by
  induction ps with
  | nil =>
    intro acc _ _ _
    simp [parsePlayersList]
  | cons hd tl ih =>
    obtain ⟨k, p⟩ := hd
    intro acc hdisj hnd hcoh
    simp only [List.map_cons, List.nodup_cons] at hnd
    have hk : p.user_id = k := hcoh (k, p) (by simp)
    simp only [List.map_cons, parsePlayersList,
      PlayerSessionInfo.from_dict_to_dict]
    show parsePlayersList (tl.map (fun kv => kv.2.to_dict))
      (dinsert acc p.user_id p) = some (acc ++ (k, p) :: tl)
    rw [hk, dinsert_of_not_mem acc k p (hdisj k (by simp))]
    rw [ih (acc ++ [(k, p)]) ?_ hnd.2 (fun kv hkv => hcoh kv (by simp [hkv]))]
    · simp
    · intro k₂ hk₂
      simp only [List.map_append, List.map_cons, List.map_nil,
        List.mem_append, List.mem_cons, List.not_mem_nil, or_false]
      push_neg
      exact ⟨hdisj k₂ (by simp [hk₂]), fun he => hnd.1 (he ▸ hk₂)⟩

/-- Session document with `players` serialized as a list of entry
records instead of a keyed map — the alternative input shape the spec
says `from_dict` accepts. -/
def AudioSessionInfo.toDictPlayersAsList (s : AudioSessionInfo) : JValue :=
  let players_list : List JValue := s.players.map (fun kv => kv.2.to_dict)
  let base : List (JKey × JValue) :=
    [ (.str "session_id", .str s.session_id),
      (.str "guild_id", .int s.guild_id),
      (.str "mode", .str s.mode),
      (.str "started_at", dtToIso (some s.started_at)),
      (.str "ended_at", dtToIso s.ended_at),
      (.str "label", optStrJ s.label),
      (.str "base_dir", .str s.base_dir),
      (.str "audio_dir", .str s.audio_dir),
      (.str "meta_path", .str s.meta_path),
      (.str "players", .arr players_list) ]
  .obj (if s.extra.isEmpty then base else base ++ [(.str "extra", .obj s.extra)])

/-- Timestamp codec round trip. -/
theorem dtFromIso_dtToIso (d : Option PyDateTime) :
    dtFromIso (dtToIso d) = some d := by
  cases d <;> rfl

/-- Optional-string codec round trip. -/
theorem jOptStr_optStrJ (x : Option String) : jOptStr (optStrJ x) = some x := by
  cases x <;> rfl

/-- Field lookups on a `to_dict` document.  Keeping the session opaque
makes each of these cheap to use. -/
theorem jGet_to_dict (s : AudioSessionInfo) :
    jGet s.to_dict (.str "session_id") = some (.str s.session_id) ∧
    jGet s.to_dict (.str "guild_id") = some (.int s.guild_id) ∧
    jGet s.to_dict (.str "mode") = some (.str s.mode) ∧
    jGet s.to_dict (.str "started_at") = some (dtToIso (some s.started_at)) ∧
    jGet s.to_dict (.str "ended_at") = some (dtToIso s.ended_at) ∧
    jGet s.to_dict (.str "label") = some (optStrJ s.label) ∧
    jGet s.to_dict (.str "base_dir") = some (.str s.base_dir) ∧
    jGet s.to_dict (.str "audio_dir") = some (.str s.audio_dir) ∧
    jGet s.to_dict (.str "meta_path") = some (.str s.meta_path) ∧
    jGet s.to_dict (.str "players") =
      some (.obj (s.players.map (fun kv => (JKey.ofId kv.1, kv.2.to_dict)))) ∧
    jGet s.to_dict (.str "extra") =
      (if s.extra.isEmpty then none else some (.obj s.extra)) := by
  unfold AudioSessionInfo.to_dict jGet
  by_cases h : s.extra.isEmpty <;> simp [h, dget]

/-- Field lookups on a `toDictPlayersAsList` document. -/
theorem jGet_toDictPlayersAsList (s : AudioSessionInfo) :
    jGet s.toDictPlayersAsList (.str "session_id")
      = some (.str s.session_id) ∧
    jGet s.toDictPlayersAsList (.str "guild_id") = some (.int s.guild_id) ∧
    jGet s.toDictPlayersAsList (.str "mode") = some (.str s.mode) ∧
    jGet s.toDictPlayersAsList (.str "started_at")
      = some (dtToIso (some s.started_at)) ∧
    jGet s.toDictPlayersAsList (.str "ended_at")
      = some (dtToIso s.ended_at) ∧
    jGet s.toDictPlayersAsList (.str "label") = some (optStrJ s.label) ∧
    jGet s.toDictPlayersAsList (.str "base_dir") = some (.str s.base_dir) ∧
    jGet s.toDictPlayersAsList (.str "audio_dir")
      = some (.str s.audio_dir) ∧
    jGet s.toDictPlayersAsList (.str "meta_path")
      = some (.str s.meta_path) ∧
    jGet s.toDictPlayersAsList (.str "players")
      = some (.arr (s.players.map (fun kv => kv.2.to_dict))) ∧
    jGet s.toDictPlayersAsList (.str "extra")
      = (if s.extra.isEmpty then none else some (.obj s.extra)) := by
  unfold AudioSessionInfo.toDictPlayersAsList jGet
  by_cases h : s.extra.isEmpty <;> simp [h, dget]

/-- C4: serializing a session with `to_dict` and parsing it back with
`from_dict` reproduces the session exactly — `session_id`, `guild_id`,
`mode`, `label`, `players` and `extra` included — and the same holds
when the players collection is serialized as a list of entry records
instead of a keyed map.  The hypotheses state dict well-formedness
(distinct keys) and, for the keyed-map-free list shape, that each entry
record carries the id under which it was keyed (a list of entries has
no separate keys to preserve). -/
theorem C4_session_roundtrip (s : AudioSessionInfo) (now : PyDateTime)
    (hp : (s.players.map Prod.fst).Nodup)
    (he : (s.extra.map Prod.fst).Nodup)
    (hcoh : ∀ kv ∈ s.players, kv.2.user_id = kv.1) :
    AudioSessionInfo.from_dict now s.to_dict = some s ∧
    AudioSessionInfo.from_dict now s.toDictPlayersAsList = some s := by
  have hpl : parsePlayersObj
      (s.players.map (fun kv => (JKey.ofId kv.1, kv.2.to_dict))) []
      = some s.players := by
    simpa using parsePlayersObj_map s.players [] (by simp) hp
  have hpll : parsePlayersList (s.players.map (fun kv => kv.2.to_dict)) []
      = some s.players := by
    simpa using parsePlayersList_map s.players [] (by simp) hp hcoh
  have hex : pyDictOf s.extra = s.extra := pyDictOf_eq_self s.extra he
  obtain ⟨h1, h2, h3, h4, h5, h6, h7, h8, h9, h10, h11⟩ := jGet_to_dict s
  obtain ⟨g1, g2, g3, g4, g5, g6, g7, g8, g9, g10, g11⟩ :=
    jGet_toDictPlayersAsList s
  clear hp he hcoh
  constructor
  · unfold AudioSessionInfo.from_dict
    rw [h1, h2, h3, h4, h5, h6, h7, h8, h9, h10, h11]
    clear h1 h2 h3 h4 h5 h6 h7 h8 h9 h10 h11
    clear g1 g2 g3 g4 g5 g6 g7 g8 g9 g10 g11 hpll
    obtain ⟨sid, gid, mode, sa, ea, lab, bd, ad, mp, players, extra⟩ := s
    simp only at hpl hex ⊢
    cases players <;> cases extra <;>
      simp only [List.map_cons, List.map_nil] at hpl <;>
      simp [Option.getD_some, Option.getD_none,
        Option.bind_eq_bind, Option.pure_def,
        jTruthy, hpl, hex,
        dtFromIso_dtToIso, jOptStr_optStrJ, pyStrJ,
        pyIntJ, jStrJ]
  · unfold AudioSessionInfo.from_dict
    rw [g1, g2, g3, g4, g5, g6, g7, g8, g9, g10, g11]
    clear h1 h2 h3 h4 h5 h6 h7 h8 h9 h10 h11
    clear g1 g2 g3 g4 g5 g6 g7 g8 g9 g10 g11 hpl
    obtain ⟨sid, gid, mode, sa, ea, lab, bd, ad, mp, players, extra⟩ := s
    simp only at hpll hex ⊢
    cases players <;> cases extra <;>
      simp only [List.map_cons, List.map_nil] at hpll <;>
      simp [Option.getD_some, Option.getD_none,
        Option.bind_eq_bind, Option.pure_def,
        jTruthy, hpll, hex,
        dtFromIso_dtToIso, jOptStr_optStrJ, pyStrJ,
        pyIntJ, jStrJ] <;>
      rfl

/-- Session with two players and a non-empty extra dict. -/
def richSession : AudioSessionInfo :=
  { session_id := "s3", guild_id := 7, mode := "record_only",
    started_at := 10, ended_at := some 20, label := some "one-shot",
    base_dir := ".logs/audio/s3", audio_dir := ".logs/audio/s3",
    meta_path := ".logs/audio/s3/session_meta.json",
    players := [(1, { user_id := 1, player := some "alice",
                      character := some "Azur",
                      first_offset_seconds := some 2,
                      first_spoke_at := some 12 }),
                (2, { user_id := 2, player := some "bob" })],
    extra := [(.str "note", .str "x")] }

/-- C4 witness: the two-player session with extras survives both the
keyed-map and the entry-list serialization round trips. -/
theorem C4_session_roundtrip_witness :
    AudioSessionInfo.from_dict 99 richSession.to_dict = some richSession ∧
    AudioSessionInfo.from_dict 99 richSession.toDictPlayersAsList =
      some richSession :=
  C4_session_roundtrip richSession 99 (by decide) (by decide) (by decide)

/-! ## C7 -/

/-- Segmentation buffer with no tracked speaker. -/
def emptyBuffer : AudioBuffer :=
  { max_speakers := -1, data_limit := 200, channels := 2, sample_width := 2,
    sample_rate := 48000, speakers := [], buffers := [] }

/-- Transcribing-generation sink with an empty queue. -/
def sampleSrcSink : SrcDiscordSink :=
  { guild_id := 7, log_path := "log.jsonl", silence_threshold := 2,
    enable_subtitle_noise_filter := true, player_map := [],
    audio_archiver := none, audio_buffer := emptyBuffer,
    voice_queue := [], running := true }

/-- C7 counterexample: the claim fails on both generations of `write`.
The transcribing-generation `write` enqueues an empty frame instead of
dropping it; the record-only-generation `write` performs the archive
file write itself — appending through the archiver creates the user's
WAV file in the session directory — instead of enqueuing anything. -/
theorem C7_counterexample :
    sampleSrcSink.voice_queue = [] ∧
    (sampleSrcSink.write [] 9 2).voice_queue = [(9, [], 2)] ∧
    ((PiaDiscordSink.create 7 "record_only" [] (some emptyArchiver)
        none).write [0, 1] 9 2).audio_archiver =
      some (emptyArchiver.append 9 [0, 1]) ∧
    (emptyArchiver.append 9 [0, 1]).dir = ["user_9.wav"] := by
  refine ⟨rfl, rfl, rfl, by decide⟩

/-- C7 amended: in the transcribing generation, `write` only timestamps
the frame and enqueues `(speakerId, frame, timestamp)` — the buffer,
archiver and running flag are untouched — but empty frames are enqueued
like any other, not dropped; in the record-only generation, `write`
drops empty frames entirely (the sink state is unchanged) and for a
non-empty frame appends it synchronously to the archiver under the
archiver lock (file I/O on the voice thread), with no queue involved. -/
theorem C7_write_behaviour (data : Bytes) (user_id : Int) (now : PyTime) :
    (∀ s : SrcDiscordSink,
      (s.write data user_id now).voice_queue =
        s.voice_queue ++ [(user_id, data, now)] ∧
      (s.write data user_id now).audio_buffer = s.audio_buffer ∧
      (s.write data user_id now).audio_archiver = s.audio_archiver ∧
      (s.write data user_id now).running = s.running) ∧
    (∀ p : PiaDiscordSink, data.isEmpty = true →
      p.write data user_id now = p) ∧
    (∀ (p : PiaDiscordSink) (a : AudioArchiver), data.isEmpty = false →
      p.audio_archiver = some a →
      (p.write data user_id now).audio_archiver =
        some (a.append user_id data)) := by
  refine ⟨fun s => ⟨rfl, rfl, rfl, rfl⟩, ?_, ?_⟩
  · intro p h
    unfold PiaDiscordSink.write
    simp [h]
  · intro p a h ha
    unfold PiaDiscordSink.write
    simp only [h, Bool.false_eq_true, if_false]
    split_ifs <;> simp [ha]

/-- C7 amended-claim witness: an empty frame leaves the record-only
sink untouched, and a non-empty frame reaches the archiver. -/
theorem C7_write_behaviour_witness :
    ((PiaDiscordSink.create 7 "record_only" [] none none).write [] 9 2 =
      PiaDiscordSink.create 7 "record_only" [] none none) ∧
    ((PiaDiscordSink.create 7 "record_only" [] (some emptyArchiver)
        none).write [5] 9 2).audio_archiver =
      some (emptyArchiver.append 9 [5]) :=
  ⟨(C7_write_behaviour [] 9 2).2.1 _ (by decide),
   (C7_write_behaviour [5] 9 2).2.2 _ emptyArchiver (by decide) rfl⟩

/-! ## C10 -/

/-- C10 counterexample: saving a session whose `extra` dict is empty
produces a `session_meta.json` document that carries no `extra` field
at all, refuting the claim that the document always contains `extra`. -/
theorem C10_counterexample :
    AudioSessionInfo.save_json sampleSession [] =
      some [(sampleSession.meta_path, sampleSession.to_dict)] ∧
    JKey.str "extra" ∉ jKeys sampleSession.to_dict ∧
    JKey.str "players" ∈ jKeys sampleSession.to_dict := by
  refine ⟨rfl, by decide, by decide⟩

/-- C10 amended: `save_json` writes the `to_dict` document at
`meta_path` (raising only for an empty path); the document always
contains `session_id, guild_id, mode, started_at, ended_at, label,
base_dir, audio_dir, meta_path, players` — in this order — and
contains `extra` exactly when the session's `extra` dict is non-empty;
`started_at` is an ISO-8601 timestamp string, `ended_at` is an
ISO-8601 string when set and null otherwise, and the `players` object
is keyed by the stringified user ids. -/
theorem C10_meta_shape (s : AudioSessionInfo)
    (disk : List (String × JValue)) (h : s.meta_path.isEmpty = false) :
    AudioSessionInfo.save_json s disk =
      some (dinsert disk s.meta_path s.to_dict) ∧
    jKeys s.to_dict =
      [JKey.str "session_id", JKey.str "guild_id", JKey.str "mode",
       JKey.str "started_at", JKey.str "ended_at", JKey.str "label",
       JKey.str "base_dir", JKey.str "audio_dir", JKey.str "meta_path",
       JKey.str "players"] ++
      (if s.extra.isEmpty then [] else [JKey.str "extra"]) ∧
    jGet s.to_dict (.str "started_at") = some (JValue.time s.started_at) ∧
    (s.ended_at = none →
      jGet s.to_dict (.str "ended_at") = some JValue.null) ∧
    (∀ t, s.ended_at = some t →
      jGet s.to_dict (.str "ended_at") = some (JValue.time t)) ∧
    jGet s.to_dict (.str "players") =
      some (.obj (s.players.map
        (fun kv => (JKey.ofId kv.1, kv.2.to_dict)))) ∧
    jKeys (JValue.obj (s.players.map
        (fun kv => (JKey.ofId kv.1, kv.2.to_dict)))) =
      s.players.map (fun kv => JKey.ofId kv.1) := by
  obtain ⟨h1, h2, h3, h4, h5, h6, h7, h8, h9, h10, h11⟩ := jGet_to_dict s
  refine ⟨?_, ?_, ?_, ?_, ?_, h10, ?_⟩
  · unfold AudioSessionInfo.save_json
    simp [h]
  · unfold AudioSessionInfo.to_dict jKeys
    by_cases hx : s.extra.isEmpty <;> simp [hx]
  · exact h4
  · intro he
    rw [h5, he]
    rfl
  · intro t he
    rw [h5, he]
    rfl
  · simp [jKeys, List.map_map]

/-- C10 amended-claim witness: the rich sample session (non-empty
`extra`) is saved with the full key list, `extra` included. -/
theorem C10_meta_shape_witness :
    AudioSessionInfo.save_json richSession [] =
      some (dinsert [] richSession.meta_path richSession.to_dict) ∧
    jKeys richSession.to_dict =
      [JKey.str "session_id", JKey.str "guild_id", JKey.str "mode",
       JKey.str "started_at", JKey.str "ended_at", JKey.str "label",
       JKey.str "base_dir", JKey.str "audio_dir", JKey.str "meta_path",
       JKey.str "players"] ++
      (if richSession.extra.isEmpty then [] else [JKey.str "extra"]) :=
  ⟨(C10_meta_shape richSession [] (by decide)).1,
   (C10_meta_shape richSession [] (by decide)).2.1⟩

/-! ## C8 -/

theorem derase_of_dget_none {κ α : Type} [DecidableEq κ]
    (d : List (κ × α)) (k : κ) (h : dget d k = none) : derase d k = d := by
  induction d with
  | nil => rfl
  | cons hd tl ih =>
    obtain ⟨k₀, v₀⟩ := hd
    by_cases h₀ : k₀ = k
    · simp [dget, h₀] at h
    · simp only [dget, if_neg h₀] at h
      simp [derase, h₀, ih h]

theorem mem_dinsert_keys {κ α : Type} [DecidableEq κ]
    (d : List (κ × α)) (k : κ) (v : α) (x : κ) :
    x ∈ (dinsert d k v).map Prod.fst ↔ x ∈ d.map Prod.fst ∨ x = k := by
  induction d with
  | nil => simp [dinsert]
  | cons hd tl ih =>
    obtain ⟨k₀, v₀⟩ := hd
    by_cases h₀ : k₀ = k
    · subst h₀
      simp [dinsert]
      tauto
    · simp [dinsert, h₀, ih]
      tauto

theorem dinsert_keys_nodup {κ α : Type} [DecidableEq κ]
    (d : List (κ × α)) (k : κ) (v : α)
    (h : (d.map Prod.fst).Nodup) : ((dinsert d k v).map Prod.fst).Nodup := by
  induction d with
  | nil => simp [dinsert]
  | cons hd tl ih =>
    obtain ⟨k₀, v₀⟩ := hd
    simp only [List.map_cons, List.nodup_cons] at h
    by_cases h₀ : k₀ = k
    · subst h₀
      simpa [dinsert] using h
    · simp only [dinsert, if_neg h₀, List.map_cons, List.nodup_cons]
      refine ⟨?_, ih h.2⟩
      rw [mem_dinsert_keys]
      push_neg
      exact ⟨h.1, h₀⟩

/-- Timer cancellation only removes the guild's timer entry. -/
theorem cancelSessionTimer_state (st : BotState) (gid : Int) :
    (PiaPiaBot.cancelSessionTimer st gid).1 =
      { st with session_timers := derase st.session_timers gid } := by
  unfold PiaPiaBot.cancelSessionTimer
  cases h : dget st.session_timers gid
  · simp [derase_of_dget_none _ _ h]
  · rfl

/-- Metadata finalize does not touch the sink map or the timers. -/
theorem finalize_other_fields (st : BotState) (gid : Int)
    (now : PyDateTime) :
    (PiaPiaBot.finalizeSessionMetaForGuild st gid
      now).current_sink_by_guild = st.current_sink_by_guild ∧
    (PiaPiaBot.finalizeSessionMetaForGuild st gid now).session_timers =
      st.session_timers := by
  unfold PiaPiaBot.finalizeSessionMetaForGuild
  cases dget st.current_session_by_guild gid <;> exact ⟨rfl, rfl⟩

/-- Metadata finalize leaves the session map unchanged or re-stores the
guild's session under its key. -/
theorem finalize_sessions_shape (st : BotState) (gid : Int)
    (now : PyDateTime) :
    (PiaPiaBot.finalizeSessionMetaForGuild st gid
      now).current_session_by_guild = st.current_session_by_guild ∨
    ∃ v, (PiaPiaBot.finalizeSessionMetaForGuild st gid
      now).current_session_by_guild =
        dinsert st.current_session_by_guild gid v := by
  unfold PiaPiaBot.finalizeSessionMetaForGuild
  cases dget st.current_session_by_guild gid
  · exact Or.inl rfl
  · exact Or.inr ⟨_, rfl⟩

/-- The wrapped sink-cleanup step does not touch the session map or the
timers. -/
theorem cleanupSink_fields (st : BotState) (gid : Int) (o : FailOracle) :
    (PiaPiaBot.cleanupSinkStep st gid o).current_session_by_guild =
      st.current_session_by_guild ∧
    (PiaPiaBot.cleanupSinkStep st gid o).session_timers =
      st.session_timers := by
  unfold PiaPiaBot.cleanupSinkStep
  cases dget st.current_sink_by_guild gid
  · exact ⟨rfl, rfl⟩
  · split_ifs <;> exact ⟨rfl, rfl⟩

/-- The wrapped sink-cleanup step leaves the sink map unchanged or
re-stores the cleaned sink under the guild's key. -/
theorem cleanupSink_sinks_shape (st : BotState) (gid : Int)
    (o : FailOracle) :
    (PiaPiaBot.cleanupSinkStep st gid o).current_sink_by_guild =
      st.current_sink_by_guild ∨
    ∃ v, (PiaPiaBot.cleanupSinkStep st gid o).current_sink_by_guild =
      dinsert st.current_sink_by_guild gid v := by
  unfold PiaPiaBot.cleanupSinkStep
  cases dget st.current_sink_by_guild gid
  · exact Or.inl rfl
  · split_ifs
    · exact Or.inl rfl
    · exact Or.inr ⟨_, rfl⟩

/-- One shutdown-loop step appends exactly its own two steps to the
trace. -/
theorem closeShutdownStep_trace (now : PyDateTime) (o : Int → FailOracle)
    (acc : BotState × List CleanStep) (gv : Int × PiaDiscordSink) :
    (PiaPiaBot.closeShutdownStep now o acc gv).2 =
      acc.2 ++ [CleanStep.finalizeMeta, CleanStep.closeSink] := by
  obtain ⟨a, b⟩ := acc
  unfold PiaPiaBot.closeShutdownStep
  split_ifs <;> simp

/-- No shutdown-loop step ever cancels a timer. -/
theorem foldl_shutdown_no_cancel (now : PyDateTime) (o : Int → FailOracle)
    (l : List (Int × PiaDiscordSink)) :
    ∀ acc : BotState × List CleanStep,
    CleanStep.cancelTimer ∉ acc.2 →
    CleanStep.cancelTimer ∉
      (l.foldl (PiaPiaBot.closeShutdownStep now o) acc).2 := by
  induction l with
  | nil => exact fun acc h => h
  | cons gv rest ih =>
    intro acc h
    rw [List.foldl_cons]
    apply ih
    rw [closeShutdownStep_trace]
    simp only [List.mem_append, List.mem_cons, List.not_mem_nil]
    rintro (hc | hc | hc | hc) <;> first | exact h hc | exact nomatch hc

/-- The shutdown path never cancels a session timer. -/
theorem closeShutdown_no_cancel (st : BotState) (now : PyDateTime)
    (o : Int → FailOracle) :
    CleanStep.cancelTimer ∉ (PiaPiaBot.closeShutdown st now o).2 := by
  show CleanStep.cancelTimer ∉
    (st.current_sink_by_guild.foldl (PiaPiaBot.closeShutdownStep now o)
      (st, ([] : List CleanStep))).2 ++ [CleanStep.dropState]
  intro hmem
  rcases List.mem_append.mp hmem with hc | hc
  · exact foldl_shutdown_no_cancel now o st.current_sink_by_guild
      (st, []) (by simp) hc
  · simp at hc

/-- Oracle where the finalize call raises. -/
def failFinalizeOracle : FailOracle :=
  { finalize_raises := true, cleanup_raises := false,
    pydubAvailable := true, convOk := fun _ => true }

/-- Oracle where nothing raises. -/
def okOracle : FailOracle :=
  { finalize_raises := false, cleanup_raises := false,
    pydubAvailable := true, convOk := fun _ => true }

/-- C8 counterexample: two cleanup paths do not follow the claimed
step discipline.  On the recording-stop callback path the sink is
detached from the map before the metadata finalize, and a finalize
failure aborts the callback so the sink-close step never runs; the
process-shutdown path performs no timer cancellation at all. -/
theorem C8_counterexample :
    (PiaPiaBot.onStopRecordCallback sampleBot 7 42 failFinalizeOracle).2 =
      ([CleanStep.cancelTimer, CleanStep.detachSink], false) ∧
    CleanStep.closeSink ∉
      (PiaPiaBot.onStopRecordCallback sampleBot 7 42 failFinalizeOracle).2.1 ∧
    CleanStep.cancelTimer ∉
      (PiaPiaBot.closeShutdown sampleBot 42 (fun _ => okOracle)).2 := by
  refine ⟨rfl, by decide, by decide⟩

/-- C8 amended: the direct cleanup path
(`_close_and_clean_sink_for_guild`, used by the manual-stop and timer
fallbacks and by voice-state-update) executes cancel timer → finalize
metadata → close sink → drop state in this fixed order, with the
finalize and close steps wrapped independently so that any combination
of their failures still reaches every following step — in particular
the guild's sink, session and timer entries are gone afterwards under
every failure script.  Timer cancellation is idempotent, and
cancelling an already-completed or already-cancelled timer task issues
no `cancel()` call.  The other cleanup paths deviate from the claimed
discipline: the recording-stop callback detaches the sink from the map
before finalizing and does not wrap the remaining steps (a finalize
raise aborts it before the sink close), and process shutdown never
cancels session timers. -/
theorem C8_cleanup_order (st : BotState) (guild_id : Int)
    (now : PyDateTime) (o : FailOracle) (oShut : Int → FailOracle)
    (hnds : (st.current_sink_by_guild.map Prod.fst).Nodup)
    (hnse : (st.current_session_by_guild.map Prod.fst).Nodup)
    (hndt : (st.session_timers.map Prod.fst).Nodup) :
    (PiaPiaBot.closeAndCleanSinkForGuild st guild_id now o).2 =
      [CleanStep.cancelTimer, CleanStep.finalizeMeta, CleanStep.closeSink,
       CleanStep.dropState] ∧
    dget (PiaPiaBot.closeAndCleanSinkForGuild st guild_id now
      o).1.current_sink_by_guild guild_id = none ∧
    dget (PiaPiaBot.closeAndCleanSinkForGuild st guild_id now
      o).1.current_session_by_guild guild_id = none ∧
    dget (PiaPiaBot.closeAndCleanSinkForGuild st guild_id now
      o).1.session_timers guild_id = none ∧
    PiaPiaBot.cancelSessionTimer
      (PiaPiaBot.cancelSessionTimer st guild_id).1 guild_id =
      ((PiaPiaBot.cancelSessionTimer st guild_id).1, false) ∧
    (∀ task, dget st.session_timers guild_id = some task →
      task ≠ TimerStatus.running →
      (PiaPiaBot.cancelSessionTimer st guild_id).2 = false) ∧
    (o.finalize_raises = true →
      (PiaPiaBot.onStopRecordCallback st guild_id now o).2 =
        ([CleanStep.cancelTimer, CleanStep.detachSink], false)) ∧
    CleanStep.cancelTimer ∉ (PiaPiaBot.closeShutdown st now oShut).2 := by
  have hst2sink : (if o.finalize_raises
      then (PiaPiaBot.cancelSessionTimer st guild_id).1
      else PiaPiaBot.finalizeSessionMetaForGuild
        (PiaPiaBot.cancelSessionTimer st guild_id).1 guild_id
        now).current_sink_by_guild = st.current_sink_by_guild := by
    split_ifs
    · rw [cancelSessionTimer_state]
    · rw [(finalize_other_fields _ _ _).1, cancelSessionTimer_state]
  have hst2timer : (if o.finalize_raises
      then (PiaPiaBot.cancelSessionTimer st guild_id).1
      else PiaPiaBot.finalizeSessionMetaForGuild
        (PiaPiaBot.cancelSessionTimer st guild_id).1 guild_id
        now).session_timers = derase st.session_timers guild_id := by
    split_ifs
    · rw [cancelSessionTimer_state]
    · rw [(finalize_other_fields _ _ _).2, cancelSessionTimer_state]
  have hst2sess : (if o.finalize_raises
      then (PiaPiaBot.cancelSessionTimer st guild_id).1
      else PiaPiaBot.finalizeSessionMetaForGuild
        (PiaPiaBot.cancelSessionTimer st guild_id).1 guild_id
        now).current_session_by_guild = st.current_session_by_guild ∨
      ∃ v, (if o.finalize_raises
      then (PiaPiaBot.cancelSessionTimer st guild_id).1
      else PiaPiaBot.finalizeSessionMetaForGuild
        (PiaPiaBot.cancelSessionTimer st guild_id).1 guild_id
        now).current_session_by_guild =
        dinsert st.current_session_by_guild guild_id v := by
    split_ifs
    · left
      rw [cancelSessionTimer_state]
    · rcases finalize_sessions_shape
        (PiaPiaBot.cancelSessionTimer st guild_id).1 guild_id now with
        h | ⟨v, h⟩
      · left
        rw [h, cancelSessionTimer_state]
      · right
        exact ⟨v, by rw [h, cancelSessionTimer_state]⟩
  refine ⟨rfl, ?_, ?_, ?_, ?_, ?_, ?_,
    closeShutdown_no_cancel st now oShut⟩
  · show dget (derase (PiaPiaBot.cleanupSinkStep
        (if o.finalize_raises
         then (PiaPiaBot.cancelSessionTimer st guild_id).1
         else PiaPiaBot.finalizeSessionMetaForGuild
           (PiaPiaBot.cancelSessionTimer st guild_id).1 guild_id now)
        guild_id o).current_sink_by_guild guild_id) guild_id = none
    rcases cleanupSink_sinks_shape _ guild_id o with h | ⟨v, h⟩ <;>
      rw [h, hst2sink]
    · exact dget_derase_self _ _ hnds
    · exact dget_derase_self _ _ (dinsert_keys_nodup _ _ _ hnds)
  · show dget (derase (PiaPiaBot.cleanupSinkStep
        (if o.finalize_raises
         then (PiaPiaBot.cancelSessionTimer st guild_id).1
         else PiaPiaBot.finalizeSessionMetaForGuild
           (PiaPiaBot.cancelSessionTimer st guild_id).1 guild_id now)
        guild_id o).current_session_by_guild guild_id) guild_id = none
    rw [(cleanupSink_fields _ guild_id o).1]
    rcases hst2sess with h | ⟨v, h⟩ <;> rw [h]
    · exact dget_derase_self _ _ hnse
    · exact dget_derase_self _ _ (dinsert_keys_nodup _ _ _ hnse)
  · show dget (PiaPiaBot.cleanupSinkStep
        (if o.finalize_raises
         then (PiaPiaBot.cancelSessionTimer st guild_id).1
         else PiaPiaBot.finalizeSessionMetaForGuild
           (PiaPiaBot.cancelSessionTimer st guild_id).1 guild_id now)
        guild_id o).session_timers guild_id = none
    rw [(cleanupSink_fields _ guild_id o).2, hst2timer]
    exact dget_derase_self _ _ hndt
  · rw [cancelSessionTimer_state]
    unfold PiaPiaBot.cancelSessionTimer
    rw [show dget (derase st.session_timers guild_id) guild_id = none from
      dget_derase_self _ _ hndt]
  · intro task htask hdone
    unfold PiaPiaBot.cancelSessionTimer
    rw [htask]
    simp only []
    cases task <;> simp_all
  · intro hf
    unfold PiaPiaBot.onStopRecordCallback
    rw [hf]
    rfl

/-- Timer map with a completed task for guild 7. -/
def doneTimerBot : BotState :=
  { sampleBot with session_timers := [(7, TimerStatus.done)] }

/-- C8 amended-claim witness at the sample bot state with failure-free
and finalize-failing oracles. -/
theorem C8_cleanup_order_witness :
    dget (PiaPiaBot.closeAndCleanSinkForGuild sampleBot 7 42
      okOracle).1.current_sink_by_guild 7 = none ∧
    PiaPiaBot.cancelSessionTimer
      (PiaPiaBot.cancelSessionTimer sampleBot 7).1 7 =
      ((PiaPiaBot.cancelSessionTimer sampleBot 7).1, false) ∧
    (PiaPiaBot.cancelSessionTimer doneTimerBot 7).2 = false :=
  ⟨(C8_cleanup_order sampleBot 7 42 okOracle (fun _ => okOracle)
      (by decide) (by decide) (by decide)).2.1,
   (C8_cleanup_order sampleBot 7 42 okOracle (fun _ => okOracle)
      (by decide) (by decide) (by decide)).2.2.2.2.1,
   (C8_cleanup_order doneTimerBot 7 42 okOracle (fun _ => okOracle)
      (by decide) (by decide) (by decide)).2.2.2.2.2.1
     TimerStatus.done (by decide) (by decide)⟩
